import Mathlib

/-!
Verification development for the AdventureWorld theme-park simulation
(`config.py`, `a.py` (rides), `patron.py`, `park.py`, `simulation.py`).

The Python code is shallowly embedded below.  Conventions:

* Python floats become `ℚ` (the program only ever combines its inputs with
  `+ - * /`, comparisons, and square roots; square roots appear only inside
  monotone comparisons — where we compare the squares instead — and in the
  normalisation of direction vectors, where the normalised vector is taken
  as an input of the step, next to the genuine random draws).
* Python ints become `Int` where the program can drive them negative
  (timers, capacities) and `Nat` for counters that only ever grow from 0.
* `random.*` calls are replaced by explicit "draw" arguments: each embedded
  function receives the outcome of its random draws as an input, so every
  theorem quantifies over all possible draws.
* Patron and ride objects are identified by `pid` / `rid` numbers playing
  the role of Python object identity; `deque`/`list`/`set` become `List`.
* Rendering code (`plot`, colors) and the subtype animation state
  (`update_movement` touches only angle fields that feed plotting) are not
  modelled; `print` calls are dropped.
-/

/-- `RideState` from `config.py`. -/
inductive RideState where
  | idle
  | loading
  | running
  | unloading
deriving DecidableEq

/-- `PatronState` from `config.py`. -/
inductive PatronState where
  | roaming
  | queuing
  | riding
  | exiting
deriving DecidableEq

/-- Patron personalities from `patron.py` (`"thrill_seeker"`, `"casual"`, `"balanced"`). -/
inductive Personality where
  | thrillSeeker
  | casual
  | balanced
deriving DecidableEq

/-- Terrain object categories from `park.py` (`"obstacle"`, `"boundary"`, `"pathway"`). -/
inductive TType where
  | obstacle
  | boundary
  | pathway
deriving DecidableEq

/-- Time-of-day tags from `simulation.py`. -/
inductive TimeOfDay where
  | morning
  | afternoon
  | evening
  | night
deriving DecidableEq

/-- `DEFAULT_LOADING_TIME` from `config.py`. -/
def DEFAULT_LOADING_TIME : Int := 3

/-- `DEFAULT_UNLOAD_TIME` from `config.py`. -/
def DEFAULT_UNLOAD_TIME : Int := 2

/-- `DEFAULT_PATRON_IMMOBILE_TIME` from `config.py`. -/
def DEFAULT_PATRON_IMMOBILE_TIME : Int := 5

/-- `DEFAULT_PATRON_MOVE_SPEED` from `config.py` (0.75). -/
def DEFAULT_PATRON_MOVE_SPEED : ℚ := 3 / 4

/-- `DEFAULT_SPAWN_RATE` from `config.py` (0.22). -/
def DEFAULT_SPAWN_RATE : ℚ := 11 / 50

/-- `DEFAULT_MAX_TIMESTEPS` from `config.py`. -/
def DEFAULT_MAX_TIMESTEPS : Nat := 700

/-- An axis-aligned bounding box `(x_min, y_min, x_max, y_max)`. -/
structure BBox where
  xMin : ℚ
  yMin : ℚ
  xMax : ℚ
  yMax : ℚ
deriving DecidableEq

/-- The state of a `Ride` object (`a.py`): geometry and mutable simulation
fields from `Ride.__init__`.  `rid` stands for Python object identity. -/
structure RideS where
  rid : Nat
  x : ℚ
  y : ℚ
  width : ℚ
  height : ℚ
  capacity : Int
  duration : Int
  state : RideState
  queue : List Nat
  riders : List Nat
  timer : Int
  loadingTime : Int
  unloadTime : Int
  totalRidersServed : Nat
  totalCycles : Nat
  popularityScore : Nat
deriving DecidableEq

/-- `Ride.__init__`: a freshly constructed ride (state `IDLE`, empty queue and
riders, timer 0, default loading/unload times, zeroed statistics). -/
def mkRide (rid : Nat) (x y width height : ℚ) (capacity duration : Int) : RideS :=
  { rid := rid, x := x, y := y, width := width, height := height
    capacity := capacity, duration := duration
    state := RideState.idle, queue := [], riders := [], timer := 0
    loadingTime := DEFAULT_LOADING_TIME, unloadTime := DEFAULT_UNLOAD_TIME
    totalRidersServed := 0, totalCycles := 0, popularityScore := 0 }

/-- `Ride.get_bounding_box`. -/
def Ride.get_bounding_box (r : RideS) : BBox :=
  { xMin := r.x - r.width / 2, yMin := r.y - r.height / 2
    xMax := r.x + r.width / 2, yMax := r.y + r.height / 2 }

/-- `Ride.overlaps_with`: buffered bounding-box overlap test (buffer 5). -/
def Ride.overlaps_with (r other : RideS) : Bool :=
  let box1 := Ride.get_bounding_box r
  let box2 := Ride.get_bounding_box other
  !(decide (box1.xMax + 5 < box2.xMin) || decide (box1.xMin > box2.xMax + 5) ||
    decide (box1.yMax + 5 < box2.yMin) || decide (box1.yMin > box2.yMax + 5))

/-- The ride-side effect of `Ride.add_to_queue`: append the patron (by id)
to the FIFO queue and bump the popularity score.  (The patron-side effects
of `add_to_queue` are in `Ride.add_to_queue` below.) -/
def Ride.enqueue_pid (r : RideS) (pid : Nat) : RideS :=
  { r with queue := r.queue ++ [pid], popularityScore := r.popularityScore + 1 }

/-- `Ride.load_patrons`: move patrons from the queue head onto the ride while
`len(riders) < capacity` and the queue is non-empty.  Returns the remaining
queue and the new riders list. -/
def Ride.load_patrons (capacity : Int) : List Nat → List Nat → List Nat × List Nat
  | [], riders => ([], riders)
  | p :: rest, riders =>
    if (riders.length : Int) < capacity then
      Ride.load_patrons capacity rest (riders ++ [p])
    else (p :: rest, riders)

/-- The per-call patron events of `Ride.step_change`: which patron ids were
loaded onto the ride and which were unloaded from it in this call. -/
structure RideEvent where
  loaded : List Nat
  unloaded : List Nat
deriving DecidableEq

/-- `Ride.step_change`, with the patron-ids loaded/unloaded in this call
reported as an event (the park-level step applies the corresponding
`patron.state` / position / `mark_ride_completed` mutations to the patron
objects; the ride-only fields are updated here exactly as in the source).
`update_movement` (pure animation) is not modelled. -/
def Ride.step_change_events (r : RideS) : RideS × RideEvent :=
  if r.state = RideState.idle then
    if 0 < r.queue.length then
      ({ r with state := RideState.loading, timer := r.loadingTime }, ⟨[], []⟩)
    else (r, ⟨[], []⟩)
  else if r.state = RideState.loading then
    let qr := Ride.load_patrons r.capacity r.queue r.riders
    let loaded := qr.2.drop r.riders.length
    let t := r.timer - 1
    if t ≤ 0 then
      if 0 < qr.2.length then
        ({ r with queue := qr.1, riders := qr.2, timer := r.duration,
                  state := RideState.running }, ⟨loaded, []⟩)
      else
        ({ r with queue := qr.1, riders := qr.2, timer := t,
                  state := RideState.idle }, ⟨loaded, []⟩)
    else
      ({ r with queue := qr.1, riders := qr.2, timer := t }, ⟨loaded, []⟩)
  else if r.state = RideState.running then
    let t := r.timer - 1
    if t ≤ 0 then
      ({ r with timer := r.unloadTime, state := RideState.unloading,
                totalCycles := r.totalCycles + 1 }, ⟨[], []⟩)
    else ({ r with timer := t }, ⟨[], []⟩)
  else
    let t := r.timer - 1
    if t ≤ 0 then
      ({ r with riders := [], timer := t, state := RideState.idle,
                totalRidersServed := r.totalRidersServed + r.riders.length },
       ⟨[], r.riders⟩)
    else ({ r with timer := t }, ⟨[], []⟩)

/-- `Ride.step_change` restricted to the ride's own fields. -/
def Ride.step_change (r : RideS) : RideS :=
  (Ride.step_change_events r).1

/-- `n` successive calls of `Ride.step_change`. -/
def Ride.stepN : Nat → RideS → RideS
  | 0, r => r
  | n + 1, r => Ride.stepN n (Ride.step_change r)

/-- An external operation on a single ride: a patron joins the queue
(`add_to_queue`) or one tick elapses (`step_change`). -/
inductive RideOp where
  | enq (pid : Nat)
  | tick
deriving DecidableEq

/-- Apply one `RideOp`. -/
def Ride.apply_op (r : RideS) : RideOp → RideS
  | RideOp.enq pid => Ride.enqueue_pid r pid
  | RideOp.tick => Ride.step_change r

/-- Apply a sequence of `RideOp`s in order. -/
def Ride.run_ops (r : RideS) (ops : List RideOp) : RideS :=
  ops.foldl Ride.apply_op r

/-- The state of a `Patron` object (`patron.py`), from `Patron.__init__`.
`pid` stands for Python object identity; `targetRide`/`currentTarget` hold
ride ids; `visitedRides` is the set `visited_rides` (kept duplicate-free by
`mark_ride_completed`). -/
structure Patron where
  pid : Nat
  x : ℚ
  y : ℚ
  state : PatronState
  targetRide : Option Nat
  immobileTimer : Int
  personality : Personality
  desiredRides : Nat
  moveSpeed : ℚ
  patience : Int
  visitedRides : List Nat
  ridesCompleted : Nat
  currentTarget : Option Nat
  pathHistory : List (ℚ × ℚ)
  timeInPark : Nat
  timeQueuing : Nat
  timeRiding : Nat
  timeRoaming : Nat
  adventureLevel : ℚ
deriving DecidableEq

/-- The random draws made inside `Patron.__init__`: `desiredRides` models the
personality-specific `random.randint` range, `speedDelta` the balanced
`random.uniform(-0.1, 0.15)` speed jitter, `patience` the personality-specific
`random.randint` range, `adventureLevel` the trailing `random.random()`. -/
structure PatronInit where
  desiredRides : Nat
  speedDelta : ℚ
  patience : Int
  adventureLevel : ℚ

/-- `Patron.__init__`: state `ROAMING`, `immobile_timer` set to
`DEFAULT_PATRON_IMMOBILE_TIME`, personality-dependent move speed, empty
visit records, path history seeded with the spawn point, zeroed counters. -/
def mkPatron (pid : Nat) (x y : ℚ) (personality : Personality) (pi : PatronInit) : Patron :=
  { pid := pid, x := x, y := y, state := PatronState.roaming
    targetRide := none, immobileTimer := DEFAULT_PATRON_IMMOBILE_TIME
    personality := personality
    desiredRides := pi.desiredRides
    moveSpeed :=
      match personality with
      | Personality.thrillSeeker => DEFAULT_PATRON_MOVE_SPEED * (13 / 10)
      | Personality.casual => DEFAULT_PATRON_MOVE_SPEED * (4 / 5)
      | Personality.balanced => DEFAULT_PATRON_MOVE_SPEED + pi.speedDelta
    patience := pi.patience
    visitedRides := [], ridesCompleted := 0, currentTarget := none
    pathHistory := [(x, y)]
    timeInPark := 0, timeQueuing := 0, timeRiding := 0, timeRoaming := 0
    adventureLevel := pi.adventureLevel }

/-- `Patron.mark_ride_completed`: add the ride to the `visited_rides` set,
bump `rides_completed`, clear `current_target`. -/
def Patron.mark_ride_completed (p : Patron) (rideId : Nat) : Patron :=
  { p with
    visitedRides :=
      if rideId ∈ p.visitedRides then p.visitedRides else p.visitedRides ++ [rideId]
    ridesCompleted := p.ridesCompleted + 1
    currentTarget := none }

/-- The path-history update at the end of `Patron.step_change`: append the
current position; if the history exceeds `max_history` (30), drop the oldest
entry. -/
def Patron.push_history (p : Patron) : Patron :=
  let h := p.pathHistory ++ [(p.x, p.y)]
  { p with pathHistory := if 30 < h.length then h.drop 1 else h }

/-- Full `Ride.add_to_queue`: ride-side queue append plus the patron-side
mutations (state := QUEUING, `target_ride` := the ride) and the queue-grid
position assignment.  `int(width / spacing)` is Python truncation of a
non-negative quotient, i.e. the floor. -/
def Ride.add_to_queue (r : RideS) (p : Patron) : RideS × Patron :=
  let r' := Ride.enqueue_pid r p.pid
  let queuePosition : Nat := r'.queue.length - 1
  let box := Ride.get_bounding_box r'
  let queueSpacing : ℚ := 9 / 5
  let patronsPerRow : Nat := max 3 (Int.toNat ⌊r'.width / queueSpacing⌋)
  let row : Nat := queuePosition / patronsPerRow
  let col : Nat := queuePosition % patronsPerRow
  let rowOffset : ℚ := ((patronsPerRow : ℚ) * queueSpacing - r'.width) / 2
  let p' := { p with
    state := PatronState.queuing
    targetRide := some r'.rid
    x := box.xMin + (col : ℚ) * queueSpacing + queueSpacing / 2 - rowOffset
    y := box.yMin - 3 - (row : ℚ) * (3 / 2) }
  (r', p')

/-- A `TerrainObject` (`park.py`). -/
structure Terrain where
  x : ℚ
  y : ℚ
  width : ℚ
  height : ℚ
  ttype : TType
deriving DecidableEq

/-- `TerrainObject.get_bounding_box`. -/
def Terrain.get_bounding_box (t : Terrain) : BBox :=
  { xMin := t.x - t.width / 2, yMin := t.y - t.height / 2
    xMax := t.x + t.width / 2, yMax := t.y + t.height / 2 }

/-- `TerrainObject.contains_point`. -/
def Terrain.contains_point (t : Terrain) (x y : ℚ) : Bool :=
  let box := Terrain.get_bounding_box t
  decide (box.xMin ≤ x) && decide (x ≤ box.xMax) &&
  decide (box.yMin ≤ y) && decide (y ≤ box.yMax)

/-- The state of a `Park` object (`park.py`). -/
structure ParkS where
  width : ℚ
  height : ℚ
  rides : List RideS
  patrons : List Patron
  terrain : List Terrain
  entrances : List (ℚ × ℚ)
  exits : List (ℚ × ℚ)

/-- `Park.__init__` together with `Park._setup_park`: corner entrances/exits
and the four boundary walls (wall thickness 5); no rides, no patrons. -/
def mkPark (width height : ℚ) : ParkS :=
  { width := width, height := height, rides := [], patrons := []
    terrain :=
      [ ⟨width / 2, 5 / 2, width, 5, TType.boundary⟩,
        ⟨width / 2, height - 5 / 2, width, 5, TType.boundary⟩,
        ⟨5 / 2, height / 2, 5, height, TType.boundary⟩,
        ⟨width - 5 / 2, height / 2, 5, height, TType.boundary⟩ ]
    entrances := [(25, 25), (width - 25, 25), (width / 2, 25)]
    exits := [(25, height - 25), (width - 25, height - 25), (width / 2, height - 25)] }

/-- `Park.is_valid_position`: inside the 12-unit margin, outside every
non-pathway terrain object, and outside every ride's bounding box inflated
by a buffer of 2. -/
def Park.is_valid_position (pk : ParkS) (x y : ℚ) : Bool :=
  if x < 12 ∨ pk.width - 12 < x ∨ y < 12 ∨ pk.height - 12 < y then false
  else if pk.terrain.any fun ob =>
      decide (ob.ttype ≠ TType.pathway) && Terrain.contains_point ob x y then false
  else if pk.rides.any fun r =>
      let box := Ride.get_bounding_box r
      decide (box.xMin - 2 ≤ x) && decide (x ≤ box.xMax + 2) &&
      decide (box.yMin - 2 ≤ y) && decide (y ≤ box.yMax + 2) then false
  else true

/-- `Park.add_ride`: reject (returning `false` and the park unchanged) if the
new ride overlaps any existing ride, else append it and return `true`. -/
def Park.add_ride (pk : ParkS) (r : RideS) : Bool × ParkS :=
  if pk.rides.any fun ex => Ride.overlaps_with r ex then (false, pk)
  else (true, { pk with rides := pk.rides ++ [r] })

/-- The random draws consumed by one `Patron.step_change` call.
`choiceIdx` models `random.choice` (reduced mod the choice-list length);
`exitDraw`, `joinDraw`, `patienceDraw` model `random.random()`;
`vec1`/`vec2` model the unit vector `(cos angle, sin angle)` of the first
and the fallback random movement angle; `exitDir` models the normalised
direction `(dx, dy)/distance` toward the nearest exit (irrational over ℚ,
hence supplied as an input of the step). -/
structure Draws where
  exitDraw : ℚ
  choiceIdx : Nat
  joinDraw : ℚ
  vec1 : ℚ × ℚ
  vec2 : ℚ × ℚ
  exitDir : ℚ × ℚ
  patienceDraw : ℚ

/-- Personality-specific exit probability from `Patron.intelligent_roam`
(0.05 / 0.12 / 0.08). -/
def exitChance : Personality → ℚ
  | Personality.thrillSeeker => 1 / 20
  | Personality.casual => 3 / 25
  | Personality.balanced => 2 / 25

/-- Personality-specific queue-tolerance multiplier from
`Patron.intelligent_roam` (3 / 1.5 / 2, applied to the ride capacity). -/
def queueToleranceMult : Personality → ℚ
  | Personality.thrillSeeker => 3
  | Personality.casual => 3 / 2
  | Personality.balanced => 2

/-- `Patron.intelligent_roam`.  Distance comparisons against 15 and 1 compare
the squared distance against 225 and 1 (squaring is monotone on the
non-negative reals).  Returns the updated patron and the updated ride list
(changed only when the patron joins a queue). -/
def Patron.intelligent_roam (d : Draws) (pk : ParkS) (p : Patron) : Patron × List RideS :=
  if p.desiredRides ≤ p.ridesCompleted ∧ d.exitDraw < exitChance p.personality then
    ({ p with state := PatronState.exiting, currentTarget := none }, pk.rides)
  else
    let unvisited := pk.rides.filter fun r => decide (r.rid ∉ p.visitedRides)
    let needNew : Bool :=
      match p.currentTarget with
      | none => true
      | some t => decide (t ∈ p.visitedRides)
    let tgt : Option Nat :=
      if needNew then
        match unvisited with
        | u :: us => some (((u :: us).getD (d.choiceIdx % (u :: us).length) u).rid)
        | [] =>
          match pk.rides with
          | r0 :: rs => some (((r0 :: rs).getD (d.choiceIdx % (r0 :: rs).length) r0).rid)
          | [] => p.currentTarget
      else p.currentTarget
    let p := { p with currentTarget := tgt }
    match tgt with
    | none =>
      let nx := p.x + p.moveSpeed * d.vec1.1
      let ny := p.y + p.moveSpeed * d.vec1.2
      if Park.is_valid_position pk nx ny then ({ p with x := nx, y := ny }, pk.rides)
      else (p, pk.rides)
    | some t =>
      match pk.rides.find? fun r => r.rid = t with
      | none => (p, pk.rides)
      | some tr =>
        let dx := tr.x - p.x
        let dy := tr.y - p.y
        let distSq := dx ^ 2 + dy ^ 2
        let maxAcceptableQueue : ℚ := (tr.capacity : ℚ) * queueToleranceMult p.personality
        let joinChance : ℚ := if tr.rid ∈ p.visitedRides then 3 / 10 else 1 / 2
        if distSq < 225 ∧ (tr.queue.length : ℚ) < maxAcceptableQueue ∧
            d.joinDraw < joinChance then
          let rp := Ride.add_to_queue tr p
          (rp.2, pk.rides.map fun r => if r.rid = t then rp.1 else r)
        else if 1 < distSq then
          let nx := p.x + p.moveSpeed * d.vec1.1
          let ny := p.y + p.moveSpeed * d.vec1.2
          if Park.is_valid_position pk nx ny then ({ p with x := nx, y := ny }, pk.rides)
          else
            let ax := p.x + p.moveSpeed * d.vec2.1
            let ay := p.y + p.moveSpeed * d.vec2.2
            if Park.is_valid_position pk ax ay then ({ p with x := ax, y := ay }, pk.rides)
            else (p, pk.rides)
        else (p, pk.rides)

/-- `Patron.check_queue_patience`: in the first ride whose queue contains the
patron, if its queue position exceeds its patience, with probability 0.05
leave the queue and return to roaming with the target cleared. -/
def Patron.check_queue_patience (d : Draws) (pk : ParkS) (p : Patron) : Patron × List RideS :=
  match pk.rides.find? fun r => decide (p.pid ∈ r.queue) with
  | none => (p, pk.rides)
  | some r =>
    let queuePosition : Nat := r.queue.findIdx fun q => q = p.pid
    if p.patience < (queuePosition : Int) ∧ d.patienceDraw < 1 / 20 then
      let r' := { r with queue := r.queue.erase p.pid }
      ({ p with state := PatronState.roaming, currentTarget := none },
       pk.rides.map fun q => if q.rid = r.rid then r' else q)
    else (p, pk.rides)

/-- `Patron.move_to_exit`: with no configured exits, do nothing; otherwise
head for the exit nearest by Euclidean distance (first minimum, comparing
squared distances), and within distance 2 of it remove the patron from the
park (the returned `Bool` signals `park.remove_patron(self)`). -/
def Patron.move_to_exit (d : Draws) (pk : ParkS) (p : Patron) : Patron × List RideS × Bool :=
  match pk.exits with
  | [] => (p, pk.rides, false)
  | e :: es =>
    let dsq : ℚ × ℚ → ℚ := fun q => (p.x - q.1) ^ 2 + (p.y - q.2) ^ 2
    let nearest := es.foldl (fun best q => if dsq q < dsq best then q else best) e
    let dx := nearest.1 - p.x
    let dy := nearest.2 - p.y
    if dx ^ 2 + dy ^ 2 < 4 then (p, pk.rides, true)
    else
      ({ p with x := p.x + p.moveSpeed * d.exitDir.1
                y := p.y + p.moveSpeed * d.exitDir.2 }, pk.rides, false)

/-- The final path-history update of `Patron.step_change`: applied when the
patron ends the call roaming or exiting. -/
def Patron.after_history (p3 : Patron) : Patron :=
  if p3.state = PatronState.roaming ∨ p3.state = PatronState.exiting then
    Patron.push_history p3
  else p3

/-- The state dispatch of `Patron.step_change` past the immobility gate
(the `if/elif` chain on the state followed by the path-history update,
with the history update distributed into the branches). -/
def Patron.step_active (d : Draws) (pk : ParkS) (p2 : Patron) : Patron × List RideS × Bool :=
  if p2.state = PatronState.roaming then
    let pr := Patron.intelligent_roam d pk p2
    (Patron.after_history pr.1, pr.2, false)
  else if p2.state = PatronState.queuing then
    let pr := Patron.check_queue_patience d pk p2
    (Patron.after_history pr.1, pr.2, false)
  else if p2.state = PatronState.riding then (Patron.after_history p2, pk.rides, false)
  else
    let mv := Patron.move_to_exit d pk p2
    (Patron.after_history mv.1, mv.2.1, mv.2.2)

/-- `Patron.step_change`: bump the time statistics, apply the immobility
gate, then dispatch on the state; finally append to the path history when
roaming or exiting.  Returns the updated patron, the updated ride list and
whether the patron removed itself from the park. -/
def Patron.step_change (d : Draws) (pk : ParkS) (p : Patron) : Patron × List RideS × Bool :=
  let p1 := { p with timeInPark := p.timeInPark + 1 }
  let p2 :=
    if p1.state = PatronState.queuing then { p1 with timeQueuing := p1.timeQueuing + 1 }
    else if p1.state = PatronState.riding then { p1 with timeRiding := p1.timeRiding + 1 }
    else if p1.state = PatronState.roaming then { p1 with timeRoaming := p1.timeRoaming + 1 }
    else p1
  if 0 < p2.immobileTimer then
    ({ p2 with immobileTimer := p2.immobileTimer - 1 }, pk.rides, false)
  else Patron.step_active d pk p2

/-- The random draws of `Park.spawn_patron`: the entrance choice, the two
`random.uniform(-2, 2)` position jitters, and the draws of `Patron.__init__`. -/
structure SpawnDraws where
  entranceIdx : Nat
  offX : ℚ
  offY : ℚ
  pinit : PatronInit

/-- `Park.spawn_patron`: construct a patron (default personality
`"balanced"`) at a random entrance with position jitter.  (The caller
appends the patron to the park, as `add_patron` does in the source.) -/
def Park.spawn_patron (pk : ParkS) (sd : SpawnDraws) (pid : Nat) : Patron :=
  let entrance := pk.entrances.getD (sd.entranceIdx % max 1 pk.entrances.length) (0, 0)
  mkPatron pid (entrance.1 + sd.offX) (entrance.2 + sd.offY) Personality.balanced sd.pinit

/-- The random draws of one ride's update inside `Simulation.step`:
`slowDraw` is the `random.random()` of the evening/night slow-down;
`unloadImmobile` and `scatterX`/`scatterY` (indexed by patron id) model the
`random.randint(2, 5)` immobile timer and the random polar scatter offset
`radius * (cos angle, sin angle)` that `unload_patrons` gives every
unloaded patron. -/
structure RideTickDraws where
  slowDraw : ℚ
  unloadImmobile : Nat → Nat
  scatterX : Nat → ℚ
  scatterY : Nat → ℚ

/-- The patron-side effects of one ride's `step_change` (`load_patrons` /
`unload_patrons` in `a.py`): each loaded patron becomes `RIDING` at the ride
centre; each unloaded patron becomes `ROAMING`, gets the ride marked
completed, a fresh immobile timer `randint(2, 5)` (encoded `2 + draw % 4`)
and a scattered position near the ride.  Applied once per occurrence in the
event lists, exactly as the source loops over `riders`. -/
def Park.apply_ride_events (r : RideS) (rt : RideTickDraws) (ev : RideEvent)
    (ps : List Patron) : List Patron :=
  let ps1 := ev.loaded.foldl (fun acc pid =>
    acc.map fun p =>
      if p.pid = pid then { p with state := PatronState.riding, x := r.x, y := r.y }
      else p) ps
  ev.unloaded.foldl (fun acc pid =>
    acc.map fun p =>
      if p.pid = pid then
        let p' := Patron.mark_ride_completed { p with state := PatronState.roaming } r.rid
        { p' with
          immobileTimer := 2 + ((rt.unloadImmobile pid : Int)) % 4
          x := r.x + rt.scatterX pid
          y := r.y + rt.scatterY pid }
      else p) ps1

/-- The ride loop of `Simulation.step`: each ride in order gets the
evening/night probabilistic timer inflation (only while `RUNNING` with
`timer > 1` and `random.random() > multiplier`) and then one `step_change`,
whose load/unload events are applied to the patrons. -/
def Simulation.ride_pass (rd : Nat → RideTickDraws) (mult : ℚ) (pk : ParkS) : ParkS :=
  (List.range pk.rides.length).foldl
    (fun acc i =>
      match acc.rides[i]? with
      | none => acc
      | some r =>
        let r1 :=
          if mult < 1 ∧ r.state = RideState.running ∧ 1 < r.timer ∧ mult < (rd i).slowDraw
          then { r with timer := r.timer + 1 } else r
        let se := Ride.step_change_events r1
        { acc with rides := acc.rides.set i se.1
                   patrons := Park.apply_ride_events r1 (rd i) se.2 acc.patrons })
    pk

/-- The state of a `Simulation` object (`simulation.py`). -/
structure SimS where
  park : ParkS
  maxTimesteps : Nat
  baseSpawnRate : ℚ
  spawnRate : ℚ
  rideSpeedMultiplier : ℚ
  currentTimestep : Nat
  nextPatronId : Nat
  totalSpawned : Nat
  totalExited : Nat
  patronCounts : List Nat
  queueLengths : List Nat
  timestepsRecorded : List Nat

/-- The `time_effects` table of `Simulation.__init__`: spawn multiplier and
ride speed for each time of day. -/
def timeEffects : TimeOfDay → ℚ × ℚ
  | TimeOfDay.morning => (7 / 10, 1)
  | TimeOfDay.afternoon => (13 / 10, 1)
  | TimeOfDay.evening => (9 / 10, 9 / 10)
  | TimeOfDay.night => (2 / 5, 4 / 5)

/-- `Simulation.__init__`: tick counter 0, next patron id 1, spawn rate
scaled by the time-of-day multiplier, empty statistics series. -/
def mkSim (pk : ParkS) (maxTimesteps : Nat) (spawnRate : ℚ) (tod : TimeOfDay) : SimS :=
  { park := pk, maxTimesteps := maxTimesteps
    baseSpawnRate := spawnRate
    spawnRate := spawnRate * (timeEffects tod).1
    rideSpeedMultiplier := (timeEffects tod).2
    currentTimestep := 0, nextPatronId := 1
    totalSpawned := 0, totalExited := 0
    patronCounts := [], queueLengths := [], timestepsRecorded := [] }

/-- The random draws of one `Simulation.step` call: the spawn roll, the
spawn draws, per-patron-id draws for the patron loop, and per-ride-index
draws for the ride loop. -/
structure TickDraws where
  spawnDraw : ℚ
  spawn : SpawnDraws
  patronDraws : Nat → Draws
  rideDraws : Nat → RideTickDraws

/-- The spawn phase of `Simulation.step`: the park's patron list after the
probabilistic spawn (`random.random() < spawn_rate`), the new patron (id
`next_patron_id`) appended at the tail. -/
def Simulation.spawned_patrons (td : TickDraws) (s : SimS) : List Patron :=
  if td.spawnDraw < s.spawnRate then
    s.park.patrons ++ [Park.spawn_patron s.park td.spawn s.nextPatronId]
  else s.park.patrons

/-- The patron loop of `Simulation.step`: `for patron in self.park.patrons[:]`
iterates over a snapshot of the patron list taken after the spawn phase and
calls `step_change` on every entry exactly once.  A patron only ever removes
itself (`move_to_exit` → `remove_patron`), so iterating the snapshot while
mutating the live list is the same as this structural recursion: each entry
is advanced once, with the ride list threaded through, and an entry whose
step signals removal is dropped from the result. -/
def Simulation.patron_pass (dr : Nat → Draws) (pk : ParkS) :
    List Patron → List RideS → List Patron × List RideS
  | [], rides => ([], rides)
  | p :: rest, rides =>
    let res := Patron.step_change (dr p.pid) { pk with rides := rides } p
    let tail := Simulation.patron_pass dr pk rest res.2.1
    (if res.2.2 then tail.1 else res.1 :: tail.1, tail.2)

/-- `Simulation.step`: (a) maybe spawn one patron; (b) advance every patron
in the post-spawn snapshot exactly once; (c) advance every ride once,
applying its load/unload effects to the patrons; (d) bump the tick counter
and record the statistics series. -/
def Simulation.step (td : TickDraws) (s : SimS) : SimS :=
  let patrons1 := Simulation.spawned_patrons td s
  let nid := if td.spawnDraw < s.spawnRate then s.nextPatronId + 1 else s.nextPatronId
  let spawnedCount : Nat := if td.spawnDraw < s.spawnRate then 1 else 0
  let initialCount := patrons1.length
  let pr := Simulation.patron_pass td.patronDraws { s.park with patrons := patrons1 }
      patrons1 s.park.rides
  let park2 := { s.park with patrons := pr.1, rides := pr.2 }
  let exited := initialCount - pr.1.length
  let park3 := Simulation.ride_pass td.rideDraws s.rideSpeedMultiplier park2
  { s with park := park3
           nextPatronId := nid
           totalSpawned := s.totalSpawned + spawnedCount
           totalExited := s.totalExited + exited
           currentTimestep := s.currentTimestep + 1
           patronCounts := s.patronCounts ++ [park3.patrons.length]
           queueLengths := s.queueLengths ++ [(park3.rides.map fun r => r.queue.length).sum]
           timestepsRecorded := s.timestepsRecorded ++ [s.currentTimestep + 1] }

/-- `Simulation.run` (with `interactive=False`): repeatedly call `step()`
while `current_timestep < max_timesteps`.  The draws of the tick starting
at counter value `n` are `ocl n`.  Total by construction: every step
increases the counter. -/
def Simulation.run (ocl : Nat → TickDraws) (s : SimS) : SimS :=
  if h : s.currentTimestep < s.maxTimesteps then
    Simulation.run ocl (Simulation.step (ocl s.currentTimestep) s)
  else s
termination_by s.maxTimesteps - s.currentTimestep
decreasing_by
  simp only [Simulation.step]
  omega

/-- Iterated `Patron.step_change` on a single patron, threading the ride
list through the park (draws for the `n`-th call are `dr n`). -/
def Patron.step_iter (dr : Nat → Draws) (pk : ParkS) : Nat → Patron → Patron
  | 0, p => p
  | n + 1, p =>
    let res := Patron.step_change (dr n) pk p
    Patron.step_iter dr { pk with rides := res.2.1 } n res.1

/-- An externally driven park operation for exercising the ride/patron
interaction: `join ri pi` makes patron number `pi` join the queue of ride
number `ri` (`Ride.add_to_queue`), `rideTick` advances every ride one
`step_change` (the ride loop of `Simulation.step`, with no evening/night
slow-down). -/
inductive ParkOp where
  | join (ri pi : Nat)
  | rideTick
deriving DecidableEq

/-- Apply one `ParkOp`. -/
def Park.apply_op (rd : Nat → RideTickDraws) (pk : ParkS) : ParkOp → ParkS
  | ParkOp.join ri pi =>
    match pk.rides[ri]?, pk.patrons[pi]? with
    | some r, some p =>
      let rp := Ride.add_to_queue r p
      { pk with rides := pk.rides.set ri rp.1, patrons := pk.patrons.set pi rp.2 }
    | _, _ => pk
  | ParkOp.rideTick => Simulation.ride_pass rd 1 pk

/-- Apply a sequence of `ParkOp`s in order. -/
def Park.run_ops (rd : Nat → RideTickDraws) (pk : ParkS) (ops : List ParkOp) : ParkS :=
  ops.foldl (Park.apply_op rd) pk

/-- All-zero draws for one patron step. -/
def zeroDraws : Draws :=
  { exitDraw := 0, choiceIdx := 0, joinDraw := 0, vec1 := (0, 0), vec2 := (0, 0)
    exitDir := (0, 0), patienceDraw := 0 }

/-- All-zero ride-tick draws. -/
def zeroRideTickDraws : RideTickDraws :=
  { slowDraw := 0, unloadImmobile := fun _ => 0, scatterX := fun _ => 0, scatterY := fun _ => 0 }

/-- All-zero draws for one simulation tick (the spawn roll is 0, so a spawn
happens whenever the spawn rate is positive). -/
def zeroTickDraws : TickDraws :=
  { spawnDraw := 0
    spawn := { entranceIdx := 0, offX := 0, offY := 0
               pinit := { desiredRides := 2, speedDelta := 0, patience := 5, adventureLevel := 0 } }
    patronDraws := fun _ => zeroDraws
    rideDraws := fun _ => zeroRideTickDraws }

/-- Concrete input for C3: a fresh simulation state over the empty default
park — tick counter 0, next patron id 1, effective spawn rate 1 (spelled as
a literal so the strictly positive rate is immediate), no ride slow-down. -/
def c3Sim : SimS :=
  { park := mkPark 280 200, maxTimesteps := 5, baseSpawnRate := 1, spawnRate := 1
    rideSpeedMultiplier := 1, currentTimestep := 0, nextPatronId := 1
    totalSpawned := 0, totalExited := 0
    patronCounts := [], queueLengths := [], timestepsRecorded := [] }

/-- Concrete input for C5: one capacity-1, duration-1 ride and one patron. -/
def c5Park : ParkS :=
  { mkPark 280 200 with
    rides := [mkRide 0 140 100 12 10 1 1]
    patrons := [mkPatron 0 20 20 Personality.balanced
      { desiredRides := 2, speedDelta := 0, patience := 5, adventureLevel := 0 }] }

/-- Concrete operation sequence for C5: the patron queues, rides a full
cycle (1 idle→loading tick, 3 loading ticks, 1 running tick, 2 unloading
ticks), then queues on the same ride again and rides a second full cycle. -/
def c5Ops : List ParkOp :=
  [ParkOp.join 0 0] ++ List.replicate 7 ParkOp.rideTick ++
  [ParkOp.join 0 0] ++ List.replicate 7 ParkOp.rideTick

/-- Concrete ride for C1: capacity 5, with ten patrons enqueued. -/
def c1Ride : RideS :=
  Ride.run_ops (mkRide 0 0 0 10 10 5 20) ((List.range 10).map fun i => RideOp.enq (i + 1))

/-- Concrete ride for the C2 counterexample: capacity 1, duration 1, one
queued patron, loading time `DEFAULT_LOADING_TIME` = 3. -/
def c2Ride : RideS := Ride.enqueue_pid (mkRide 0 0 0 12 10 1 1) 7

/-- Concrete rides for the C7 counterexample: two 12×10 rides whose centers
are 16 apart vertically — nearer than `(width1+width2)/2 + buffer` = 17. -/
def c7RideA : RideS := mkRide 0 0 0 12 10 10 20

/-- Second ride of the C7 counterexample. -/
def c7RideB : RideS := mkRide 1 0 16 12 10 10 20
/-- Third concrete ride for the C7 witness: centers 8 apart horizontally
from `c7RideA` at the same height, so mutually overlapping with buffer. -/
def c7RideC : RideS := mkRide 2 8 0 12 10 10 20

/-! ### Helper lemmas about the ride state machine -/

/-- `load_patrons` never pushes the riders list beyond the capacity. -/
theorem Ride.load_patrons_length_le (capacity : Int) :
    ∀ (q riders : List Nat), (riders.length : Int) ≤ capacity →
      (((Ride.load_patrons capacity q riders).2.length : Int) ≤ capacity)
  | [], _, h => h
  | p :: rest, riders, h => by
    unfold Ride.load_patrons
    split
    · rename_i hlt
      exact Ride.load_patrons_length_le capacity rest (riders ++ [p]) (by
        simp only [List.length_append, List.length_singleton]
        push_cast
        omega)
    · exact h

/-- `step_change` never changes the capacity. -/
theorem Ride.step_change_capacity (r : RideS) :
    (Ride.step_change r).capacity = r.capacity := by
  unfold Ride.step_change Ride.step_change_events
  dsimp only
  repeat' split
  all_goals simp

/-- `step_change` preserves the capacity bound on the riders list. -/
theorem Ride.step_change_riders_le (r : RideS)
    (h : (r.riders.length : Int) ≤ r.capacity) :
    (((Ride.step_change r).riders.length : Int) ≤ (Ride.step_change r).capacity) := by
  unfold Ride.step_change Ride.step_change_events
  dsimp only
  repeat' split
  all_goals simp_all
  all_goals first
    | exact Ride.load_patrons_length_le r.capacity r.queue r.riders h
    | omega

/-- Along any `RideOp` sequence the capacity bound on the riders persists. -/
theorem Ride.run_ops_riders_le :
    ∀ (ops : List RideOp) (r : RideS), (r.riders.length : Int) ≤ r.capacity →
      (((Ride.run_ops r ops).riders.length : Int) ≤ (Ride.run_ops r ops).capacity)
  | [], _, h => h
  | op :: rest, r, h => by
    have hstep : Ride.run_ops r (op :: rest) = Ride.run_ops (Ride.apply_op r op) rest := rfl
    rw [hstep]
    apply Ride.run_ops_riders_le rest
    cases op with
    | enq pid => simpa [Ride.apply_op, Ride.enqueue_pid] using h
    | tick =>
      simpa [Ride.apply_op] using Ride.step_change_riders_le r h

/-- The capacity is constant along any `RideOp` sequence. -/
theorem Ride.run_ops_capacity :
    ∀ (ops : List RideOp) (r : RideS), (Ride.run_ops r ops).capacity = r.capacity
  | [], _ => rfl
  | op :: rest, r => by
    have hstep : Ride.run_ops r (op :: rest) = Ride.run_ops (Ride.apply_op r op) rest := rfl
    rw [hstep, Ride.run_ops_capacity rest]
    cases op with
    | enq pid => rfl
    | tick => exact Ride.step_change_capacity r

/-- C1.  Capacity invariant: for every ride with non-negative capacity, in
every state reachable by any sequence of `add_to_queue` and `step_change`
calls from construction, `len(riders) ≤ capacity`; and for the concrete
capacity-5 ride with patrons 1..10 enqueued, a single `load_patrons` call
moves exactly patrons 1..5 onto the ride and leaves exactly 6..10 queued. -/
theorem claim_C1_capacity_invariant :
    (∀ (rid : Nat) (x y w h : ℚ) (cap dur : Int), 0 ≤ cap →
      ∀ ops : List RideOp,
        ((Ride.run_ops (mkRide rid x y w h cap dur) ops).riders.length : Int) ≤ cap) ∧
    Ride.load_patrons c1Ride.capacity c1Ride.queue c1Ride.riders =
      ([6, 7, 8, 9, 10], [1, 2, 3, 4, 5]) := by
  constructor
  · intro rid x y w h cap dur hcap ops
    have h0 : (((mkRide rid x y w h cap dur).riders.length : Int) ≤
        (mkRide rid x y w h cap dur).capacity) := by
      simpa [mkRide] using hcap
    have hrun := Ride.run_ops_riders_le ops (mkRide rid x y w h cap dur) h0
    rwa [Ride.run_ops_capacity] at hrun
  · decide

/-- Witness for C1 at a concrete input: the capacity-5 ride after ten
enqueues and four ticks (which load it to capacity) carries at most 5
riders. -/
theorem claim_C1_capacity_invariant_witness :
    ((Ride.run_ops (mkRide 0 0 0 10 10 5 20)
        (((List.range 10).map fun i => RideOp.enq (i + 1)) ++
          [RideOp.tick, RideOp.tick, RideOp.tick, RideOp.tick])).riders.length : Int) ≤ 5 :=
  claim_C1_capacity_invariant.1 0 0 0 10 10 5 20 (by decide)
    (((List.range 10).map fun i => RideOp.enq (i + 1)) ++
      [RideOp.tick, RideOp.tick, RideOp.tick, RideOp.tick])

/-- With non-positive capacity, `load_patrons` never boards anyone. -/
theorem Ride.load_patrons_nonpos (capacity : Int) (hc : capacity ≤ 0) :
    ∀ q : List Nat, Ride.load_patrons capacity q [] = (q, []) := by
  intro q
  cases q with
  | nil => rfl
  | cons p rest =>
    unfold Ride.load_patrons
    rw [if_neg]
    simp only [List.length_nil, Nat.cast_zero]
    omega

/-- With non-positive capacity, a single `step_change` keeps the riders
empty and the state in {Idle, Loading}. -/
theorem Ride.step_change_nonpos (r : RideS) (hc : r.capacity ≤ 0)
    (h : r.riders = [] ∧ (r.state = RideState.idle ∨ r.state = RideState.loading)) :
    (Ride.step_change r).riders = [] ∧
      ((Ride.step_change r).state = RideState.idle ∨
        (Ride.step_change r).state = RideState.loading) := by
  obtain ⟨hr, hs⟩ := h
  unfold Ride.step_change Ride.step_change_events
  dsimp only
  rcases hs with hs | hs
  all_goals repeat' split
  all_goals simp_all [Ride.load_patrons_nonpos r.capacity hc]

/-- With non-positive capacity the riders stay empty and the state stays in
{Idle, Loading} along any `RideOp` sequence. -/
theorem Ride.run_ops_nonpos :
    ∀ (ops : List RideOp) (r : RideS), r.capacity ≤ 0 →
      r.riders = [] ∧ (r.state = RideState.idle ∨ r.state = RideState.loading) →
      ((Ride.run_ops r ops).riders = [] ∧
        ((Ride.run_ops r ops).state = RideState.idle ∨
          (Ride.run_ops r ops).state = RideState.loading))
  | [], _, _, h => h
  | op :: rest, r, hc, h => by
    have hstep : Ride.run_ops r (op :: rest) = Ride.run_ops (Ride.apply_op r op) rest := rfl
    rw [hstep]
    apply Ride.run_ops_nonpos rest
    · cases op with
      | enq pid => simpa [Ride.apply_op, Ride.enqueue_pid] using hc
      | tick => simpa [Ride.apply_op, Ride.step_change_capacity] using hc
    · cases op with
      | enq pid =>
        obtain ⟨hr, hs⟩ := h
        exact ⟨hr, hs⟩
      | tick => exact Ride.step_change_nonpos r hc h

/-- C6.  A ride with capacity ≤ 0 (in particular capacity 0), however many
patrons are enqueued and however many `step_change` calls happen, keeps
`riders` empty, never enters `RUNNING`, and stays within the
Idle→Loading→Idle cycle. -/
theorem claim_C6_zero_capacity_never_boards
    (rid : Nat) (x y w h : ℚ) (cap dur : Int) (hcap : cap ≤ 0) (ops : List RideOp) :
    (Ride.run_ops (mkRide rid x y w h cap dur) ops).riders = [] ∧
    (Ride.run_ops (mkRide rid x y w h cap dur) ops).state ≠ RideState.running ∧
    ((Ride.run_ops (mkRide rid x y w h cap dur) ops).state = RideState.idle ∨
      (Ride.run_ops (mkRide rid x y w h cap dur) ops).state = RideState.loading) := by
  have h0 := Ride.run_ops_nonpos ops (mkRide rid x y w h cap dur)
    (by simpa [mkRide] using hcap) (by simp [mkRide])
  obtain ⟨hr, hs⟩ := h0
  refine ⟨hr, ?_, hs⟩
  rcases hs with hs | hs
  all_goals rw [hs]
  all_goals simp

/-- Witness for C6: a concrete zero-capacity ride with two enqueued patrons
and six elapsed ticks. -/
theorem claim_C6_zero_capacity_never_boards_witness :
    (Ride.run_ops (mkRide 0 0 0 10 10 0 5)
        [RideOp.enq 1, RideOp.enq 2, RideOp.tick, RideOp.tick, RideOp.tick,
         RideOp.tick, RideOp.tick, RideOp.tick]).riders = [] ∧
    (Ride.run_ops (mkRide 0 0 0 10 10 0 5)
        [RideOp.enq 1, RideOp.enq 2, RideOp.tick, RideOp.tick, RideOp.tick,
         RideOp.tick, RideOp.tick, RideOp.tick]).state ≠ RideState.running ∧
    ((Ride.run_ops (mkRide 0 0 0 10 10 0 5)
        [RideOp.enq 1, RideOp.enq 2, RideOp.tick, RideOp.tick, RideOp.tick,
         RideOp.tick, RideOp.tick, RideOp.tick]).state = RideState.idle ∨
      (Ride.run_ops (mkRide 0 0 0 10 10 0 5)
        [RideOp.enq 1, RideOp.enq 2, RideOp.tick, RideOp.tick, RideOp.tick,
         RideOp.tick, RideOp.tick, RideOp.tick]).state = RideState.loading) :=
  claim_C6_zero_capacity_never_boards 0 0 0 10 10 0 5 (by decide)
    [RideOp.enq 1, RideOp.enq 2, RideOp.tick, RideOp.tick, RideOp.tick,
     RideOp.tick, RideOp.tick, RideOp.tick]

/-- One `step_change` preserves "Idle implies no riders". -/
theorem Ride.step_change_idle_empty (r : RideS)
    (h : r.state = RideState.idle → r.riders = []) :
    (Ride.step_change r).state = RideState.idle → (Ride.step_change r).riders = [] := by
  unfold Ride.step_change Ride.step_change_events
  dsimp only
  repeat' split
  all_goals simp_all

/-- "Idle implies no riders" holds along any `RideOp` sequence. -/
theorem Ride.run_ops_idle_empty :
    ∀ (ops : List RideOp) (r : RideS), (r.state = RideState.idle → r.riders = []) →
      ((Ride.run_ops r ops).state = RideState.idle → (Ride.run_ops r ops).riders = [])
  | [], _, h => h
  | op :: rest, r, h => by
    have hstep : Ride.run_ops r (op :: rest) = Ride.run_ops (Ride.apply_op r op) rest := rfl
    rw [hstep]
    apply Ride.run_ops_idle_empty rest
    cases op with
    | enq pid =>
      intro hs
      exact h hs
    | tick => exact Ride.step_change_idle_empty r h

/-- A `step_change` from `LOADING` either stays in `LOADING`, or leaves to
`RUNNING` with a non-empty riders list, or leaves to `IDLE` with an empty
riders list — no other successor. -/
theorem Ride.step_change_from_loading (r : RideS) (hs : r.state = RideState.loading) :
    (Ride.step_change r).state = RideState.loading ∨
    ((Ride.step_change r).riders ≠ [] ∧ (Ride.step_change r).state = RideState.running) ∨
    ((Ride.step_change r).riders = [] ∧ (Ride.step_change r).state = RideState.idle) := by
  unfold Ride.step_change Ride.step_change_events
  dsimp only
  repeat' split
  all_goals simp_all [List.length_pos]

/-- C8.  In every state reachable from construction by `add_to_queue` and
`step_change`, `IDLE` implies an empty riders list; and the exits from
`LOADING` are exhaustive: a `step_change` of a loading ride either remains
loading or moves to `RUNNING` exactly when somebody is aboard after the
load, to `IDLE` exactly when nobody is. -/
theorem claim_C8_idle_empty_and_loading_exits :
    (∀ (rid : Nat) (x y w h : ℚ) (cap dur : Int) (ops : List RideOp),
      (Ride.run_ops (mkRide rid x y w h cap dur) ops).state = RideState.idle →
        (Ride.run_ops (mkRide rid x y w h cap dur) ops).riders = []) ∧
    (∀ r : RideS, r.state = RideState.loading →
      (Ride.step_change r).state = RideState.loading ∨
      ((Ride.step_change r).riders ≠ [] ∧ (Ride.step_change r).state = RideState.running) ∨
      ((Ride.step_change r).riders = [] ∧ (Ride.step_change r).state = RideState.idle)) := by
  constructor
  · intro rid x y w h cap dur ops
    exact Ride.run_ops_idle_empty ops (mkRide rid x y w h cap dur) (by simp [mkRide])
  · exact Ride.step_change_from_loading

/-- Witness for C8: the concrete capacity-1 ride after a full cycle (7
ticks) is idle with no riders, and a loading ride with a queued patron and
timer 1 moves to Running with a rider aboard. -/
theorem claim_C8_idle_empty_and_loading_exits_witness :
    ((Ride.run_ops (mkRide 0 0 0 12 10 1 1)
        [RideOp.enq 7, RideOp.tick, RideOp.tick, RideOp.tick, RideOp.tick,
         RideOp.tick, RideOp.tick, RideOp.tick]).state = RideState.idle →
      (Ride.run_ops (mkRide 0 0 0 12 10 1 1)
        [RideOp.enq 7, RideOp.tick, RideOp.tick, RideOp.tick, RideOp.tick,
         RideOp.tick, RideOp.tick, RideOp.tick]).riders = []) ∧
    ((Ride.step_change { mkRide 0 0 0 12 10 1 1 with
        state := RideState.loading, queue := [4], timer := 1 }).state = RideState.loading ∨
      ((Ride.step_change { mkRide 0 0 0 12 10 1 1 with
          state := RideState.loading, queue := [4], timer := 1 }).riders ≠ [] ∧
        (Ride.step_change { mkRide 0 0 0 12 10 1 1 with
          state := RideState.loading, queue := [4], timer := 1 }).state = RideState.running) ∨
      ((Ride.step_change { mkRide 0 0 0 12 10 1 1 with
          state := RideState.loading, queue := [4], timer := 1 }).riders = [] ∧
        (Ride.step_change { mkRide 0 0 0 12 10 1 1 with
          state := RideState.loading, queue := [4], timer := 1 }).state = RideState.idle)) :=
  ⟨claim_C8_idle_empty_and_loading_exits.1 0 0 0 12 10 1 1
      [RideOp.enq 7, RideOp.tick, RideOp.tick, RideOp.tick, RideOp.tick,
       RideOp.tick, RideOp.tick, RideOp.tick],
    claim_C8_idle_empty_and_loading_exits.2 _ (by decide)⟩

/-- C2 counterexample: the claim says `loadingTime` (= 3) `step_change`
calls take an Idle ride with a queued patron to Running, but the first call
only switches Idle→Loading; after 3 calls the concrete capacity-1 ride is
still Loading, not Running. -/
theorem claim_C2_counterexample :
    (Ride.stepN 3 c2Ride).state ≠ RideState.running ∧
    (Ride.stepN 3 c2Ride).state = RideState.loading := by
  decide

/-- From `RUNNING` with timer `n + 1`, exactly `n + 1` calls reach
`UNLOADING`, bumping the cycle counter and loading the unload timer. -/
theorem Ride.running_phase :
    ∀ (n : Nat) (r : RideS), r.state = RideState.running → r.timer = (n : Int) + 1 →
      Ride.stepN (n + 1) r =
        { r with state := RideState.unloading, timer := r.unloadTime,
                 totalCycles := r.totalCycles + 1 }
  | 0, r, hs, ht => by
    show Ride.step_change r = _
    unfold Ride.step_change Ride.step_change_events
    dsimp only
    simp [hs, ht]
  | n + 1, r, hs, ht => by
    have hone : Ride.step_change r = { r with timer := (n : Int) + 1 } := by
      unfold Ride.step_change Ride.step_change_events
      dsimp only
      rw [hs]
      simp only [reduceCtorEq, reduceIte, ht]
      rw [if_neg (by omega)]
      norm_num
    show Ride.stepN (n + 1) (Ride.step_change r) = _
    rw [hone, Ride.running_phase n { r with timer := (n : Int) + 1 } hs rfl]

/-- From `UNLOADING` with timer 2 (the default unload time), exactly two
calls unload everybody and return the ride to `IDLE`. -/
theorem Ride.unloading_phase (r : RideS) (hs : r.state = RideState.unloading) (ht : r.timer = 2) :
    Ride.stepN 2 r =
      { r with riders := [], timer := 0, state := RideState.idle,
               totalRidersServed := r.totalRidersServed + r.riders.length } := by
  have hone : Ride.step_change r = { r with timer := 1 } := by
    unfold Ride.step_change Ride.step_change_events
    dsimp only
    rw [hs]
    simp only [reduceCtorEq, reduceIte, ht]
    norm_num
  show Ride.stepN 1 (Ride.step_change r) = _
  rw [hone]
  show Ride.step_change _ = _
  unfold Ride.step_change Ride.step_change_events
  dsimp only
  rw [hs]
  simp only [reduceCtorEq, reduceIte]
  norm_num

/-- The loading phase of C2: starting Idle with one queued patron and
capacity ≥ 1, `loadingTime + 1` = 4 calls reach `RUNNING` with exactly
that patron aboard and the run timer loaded with the duration. -/
theorem Ride.c2_loading_phase (rid : Nat) (x y w h : ℚ) (cap dur : Int) (hcap : 1 ≤ cap)
    (pid : Nat) :
    Ride.stepN 4 (Ride.enqueue_pid (mkRide rid x y w h cap dur) pid) =
      ⟨rid, x, y, w, h, cap, dur, RideState.running, [], [pid], dur, 3, 2, 0, 0, 1⟩ := by
  have hload1 : Ride.load_patrons cap [pid] [] = ([], [pid]) := by
    unfold Ride.load_patrons
    rw [if_pos]
    · rfl
    · simp only [List.length_nil, Nat.cast_zero]
      omega
  have e1 : Ride.step_change (Ride.enqueue_pid (mkRide rid x y w h cap dur) pid) =
      ⟨rid, x, y, w, h, cap, dur, RideState.loading, [pid], [], 3, 3, 2, 0, 0, 1⟩ := rfl
  have e2 : Ride.step_change
        ⟨rid, x, y, w, h, cap, dur, RideState.loading, [pid], [], 3, 3, 2, 0, 0, 1⟩ =
      ⟨rid, x, y, w, h, cap, dur, RideState.loading, [], [pid], 2, 3, 2, 0, 0, 1⟩ := by
    unfold Ride.step_change Ride.step_change_events
    dsimp only
    rw [hload1]
    rfl
  have e3 : Ride.step_change
        ⟨rid, x, y, w, h, cap, dur, RideState.loading, [], [pid], 2, 3, 2, 0, 0, 1⟩ =
      ⟨rid, x, y, w, h, cap, dur, RideState.loading, [], [pid], 1, 3, 2, 0, 0, 1⟩ := rfl
  have e4 : Ride.step_change
        ⟨rid, x, y, w, h, cap, dur, RideState.loading, [], [pid], 1, 3, 2, 0, 0, 1⟩ =
      ⟨rid, x, y, w, h, cap, dur, RideState.running, [], [pid], dur, 3, 2, 0, 0, 1⟩ := rfl
  show Ride.stepN 3 (Ride.step_change _) = _
  rw [e1]
  show Ride.stepN 2 (Ride.step_change _) = _
  rw [e2]
  show Ride.stepN 1 (Ride.step_change _) = _
  rw [e3]
  show Ride.step_change _ = _
  rw [e4]

/-- C2, amended: reaching Running takes `loadingTime + 1` calls, not
`loadingTime` (the first call only switches Idle→Loading; the timer then
counts `loadingTime` further calls).  For any capacity ≥ 1 and duration
`d + 1 ≥ 1`, with one queued patron: after `loadingTime + 1` calls the ride
is Running with that one rider; after `duration` further calls it is
Unloading; after `unloadTime` further calls it is back to Idle with the
riders cleared, `total_riders_served` incremented by the boarded count (1)
and `total_cycles` incremented by exactly 1. -/
theorem claim_C2_amended (rid : Nat) (x y w h : ℚ) (cap : Int) (hcap : 1 ≤ cap)
    (d : Nat) (pid : Nat) :
    ((Ride.stepN (Int.toNat DEFAULT_LOADING_TIME + 1)
        (Ride.enqueue_pid (mkRide rid x y w h cap ((d : Int) + 1)) pid)).state =
          RideState.running ∧
      (Ride.stepN (Int.toNat DEFAULT_LOADING_TIME + 1)
        (Ride.enqueue_pid (mkRide rid x y w h cap ((d : Int) + 1)) pid)).riders = [pid]) ∧
    ((Ride.stepN (d + 1) (Ride.stepN (Int.toNat DEFAULT_LOADING_TIME + 1)
        (Ride.enqueue_pid (mkRide rid x y w h cap ((d : Int) + 1)) pid))).state =
          RideState.unloading ∧
      (Ride.stepN (d + 1) (Ride.stepN (Int.toNat DEFAULT_LOADING_TIME + 1)
        (Ride.enqueue_pid (mkRide rid x y w h cap ((d : Int) + 1)) pid))).totalCycles = 1) ∧
    ((Ride.stepN (Int.toNat DEFAULT_UNLOAD_TIME)
        (Ride.stepN (d + 1) (Ride.stepN (Int.toNat DEFAULT_LOADING_TIME + 1)
          (Ride.enqueue_pid (mkRide rid x y w h cap ((d : Int) + 1)) pid)))).state =
            RideState.idle ∧
      (Ride.stepN (Int.toNat DEFAULT_UNLOAD_TIME)
        (Ride.stepN (d + 1) (Ride.stepN (Int.toNat DEFAULT_LOADING_TIME + 1)
          (Ride.enqueue_pid (mkRide rid x y w h cap ((d : Int) + 1)) pid)))).riders = [] ∧
      (Ride.stepN (Int.toNat DEFAULT_UNLOAD_TIME)
        (Ride.stepN (d + 1) (Ride.stepN (Int.toNat DEFAULT_LOADING_TIME + 1)
          (Ride.enqueue_pid (mkRide rid x y w h cap ((d : Int) + 1)) pid)))).totalRidersServed
        = 1 ∧
      (Ride.stepN (Int.toNat DEFAULT_UNLOAD_TIME)
        (Ride.stepN (d + 1) (Ride.stepN (Int.toNat DEFAULT_LOADING_TIME + 1)
          (Ride.enqueue_pid (mkRide rid x y w h cap ((d : Int) + 1)) pid)))).totalCycles = 1) := by
  have e4 := Ride.c2_loading_phase rid x y w h cap ((d : Int) + 1) hcap pid
  have hlt : Int.toNat DEFAULT_LOADING_TIME + 1 = 4 := rfl
  have hut : Int.toNat DEFAULT_UNLOAD_TIME = 2 := rfl
  rw [hlt, hut, e4]
  have e5 : Ride.stepN (d + 1)
      ⟨rid, x, y, w, h, cap, (d : Int) + 1, RideState.running, [], [pid], (d : Int) + 1,
        3, 2, 0, 0, 1⟩ =
      ⟨rid, x, y, w, h, cap, (d : Int) + 1, RideState.unloading, [], [pid], 2, 3, 2, 0, 1, 1⟩ :=
    Ride.running_phase d
      ⟨rid, x, y, w, h, cap, (d : Int) + 1, RideState.running, [], [pid], (d : Int) + 1,
        3, 2, 0, 0, 1⟩ rfl rfl
  rw [e5]
  have e6 : Ride.stepN 2
      ⟨rid, x, y, w, h, cap, (d : Int) + 1, RideState.unloading, [], [pid], 2, 3, 2, 0, 1, 1⟩ =
      ⟨rid, x, y, w, h, cap, (d : Int) + 1, RideState.idle, [], [], 0, 3, 2, 1, 1, 1⟩ :=
    Ride.unloading_phase
      ⟨rid, x, y, w, h, cap, (d : Int) + 1, RideState.unloading, [], [pid], 2, 3, 2, 0, 1, 1⟩
      rfl rfl
  rw [e6]
  refine ⟨⟨rfl, rfl⟩, ⟨rfl, rfl⟩, rfl, rfl, rfl, rfl⟩

/-- Witness for C2 (amended) at a concrete input: capacity 2, duration 3,
patron 9. -/
theorem claim_C2_amended_witness :
    ((Ride.stepN (Int.toNat DEFAULT_LOADING_TIME + 1)
        (Ride.enqueue_pid (mkRide 0 0 0 12 10 2 ((2 : Int) + 1)) 9)).state =
          RideState.running ∧
      (Ride.stepN (Int.toNat DEFAULT_LOADING_TIME + 1)
        (Ride.enqueue_pid (mkRide 0 0 0 12 10 2 ((2 : Int) + 1)) 9)).riders = [9]) ∧
    ((Ride.stepN (2 + 1) (Ride.stepN (Int.toNat DEFAULT_LOADING_TIME + 1)
        (Ride.enqueue_pid (mkRide 0 0 0 12 10 2 ((2 : Int) + 1)) 9))).state =
          RideState.unloading ∧
      (Ride.stepN (2 + 1) (Ride.stepN (Int.toNat DEFAULT_LOADING_TIME + 1)
        (Ride.enqueue_pid (mkRide 0 0 0 12 10 2 ((2 : Int) + 1)) 9))).totalCycles = 1) ∧
    ((Ride.stepN (Int.toNat DEFAULT_UNLOAD_TIME)
        (Ride.stepN (2 + 1) (Ride.stepN (Int.toNat DEFAULT_LOADING_TIME + 1)
          (Ride.enqueue_pid (mkRide 0 0 0 12 10 2 ((2 : Int) + 1)) 9)))).state =
            RideState.idle ∧
      (Ride.stepN (Int.toNat DEFAULT_UNLOAD_TIME)
        (Ride.stepN (2 + 1) (Ride.stepN (Int.toNat DEFAULT_LOADING_TIME + 1)
          (Ride.enqueue_pid (mkRide 0 0 0 12 10 2 ((2 : Int) + 1)) 9)))).riders = [] ∧
      (Ride.stepN (Int.toNat DEFAULT_UNLOAD_TIME)
        (Ride.stepN (2 + 1) (Ride.stepN (Int.toNat DEFAULT_LOADING_TIME + 1)
          (Ride.enqueue_pid (mkRide 0 0 0 12 10 2 ((2 : Int) + 1)) 9)))).totalRidersServed
        = 1 ∧
      (Ride.stepN (Int.toNat DEFAULT_UNLOAD_TIME)
        (Ride.stepN (2 + 1) (Ride.stepN (Int.toNat DEFAULT_LOADING_TIME + 1)
          (Ride.enqueue_pid (mkRide 0 0 0 12 10 2 ((2 : Int) + 1)) 9)))).totalCycles = 1) :=
  claim_C2_amended 0 0 0 12 10 2 (by decide) 2 9

/-- `overlaps_with` holds exactly when the centers are within
`(width1+width2)/2 + 5` horizontally and `(height1+height2)/2 + 5`
vertically. -/
theorem Ride.overlaps_with_iff (r1 r2 : RideS) :
    Ride.overlaps_with r1 r2 = true ↔
      |r1.x - r2.x| ≤ (r1.width + r2.width) / 2 + 5 ∧
      |r1.y - r2.y| ≤ (r1.height + r2.height) / 2 + 5 := by
  unfold Ride.overlaps_with Ride.get_bounding_box
  dsimp only
  rw [Bool.not_eq_true']
  simp only [Bool.or_eq_false_iff, decide_eq_false_iff_not, not_lt, abs_sub_le_iff]
  constructor
  · rintro ⟨⟨⟨h1, h2⟩, h3⟩, h4⟩
    exact ⟨⟨by linarith, by linarith⟩, by linarith, by linarith⟩
  · rintro ⟨⟨h1, h2⟩, h3, h4⟩
    exact ⟨⟨⟨by linarith, by linarith⟩, by linarith⟩, by linarith⟩

/-- `overlaps_with` is symmetric. -/
theorem Ride.overlaps_with_comm (r1 r2 : RideS) :
    Ride.overlaps_with r1 r2 = Ride.overlaps_with r2 r1 := by
  rw [Bool.eq_iff_iff, Ride.overlaps_with_iff, Ride.overlaps_with_iff,
    abs_sub_comm r1.x r2.x, abs_sub_comm r1.y r2.y,
    add_comm r1.width r2.width, add_comm r1.height r2.height]

/-- `add_ride` rejects without mutating whenever the candidate overlaps
some existing ride. -/
theorem Park.add_ride_reject (pk : ParkS) (r ex : RideS) (hm : ex ∈ pk.rides)
    (hov : Ride.overlaps_with r ex = true) :
    Park.add_ride pk r = (false, pk) := by
  unfold Park.add_ride
  rw [if_pos]
  exact List.any_eq_true.mpr ⟨ex, hm, hov⟩

/-- `add_ride` accepts and appends whenever the candidate overlaps no
existing ride. -/
theorem Park.add_ride_accept (pk : ParkS) (r : RideS)
    (hov : ∀ ex ∈ pk.rides, Ride.overlaps_with r ex = false) :
    Park.add_ride pk r = (true, { pk with rides := pk.rides ++ [r] }) := by
  unfold Park.add_ride
  rw [if_neg]
  intro hany
  obtain ⟨ex, hm, hx⟩ := List.any_eq_true.mp hany
  rw [hov ex hm] at hx
  exact Bool.false_ne_true hx

/-- C7 counterexample: the claim says two rides whose centers are closer
than `(width1+width2)/2 + buffer` (= 17 here) are mutually rejected.
`c7RideA` and `c7RideB` are 12-wide, 10-high rides with centers 16 apart,
yet each is accepted (`True`) into a park already containing the other, in
both insertion orders, because their boxes are vertically separate. -/
theorem claim_C7_counterexample :
    ((c7RideA.x - c7RideB.x) ^ 2 + (c7RideA.y - c7RideB.y) ^ 2 <
      ((c7RideA.width + c7RideB.width) / 2 + 5) ^ 2) ∧
    (Park.add_ride { mkPark 280 200 with rides := [c7RideA] } c7RideB).1 = true ∧
    (Park.add_ride { mkPark 280 200 with rides := [c7RideB] } c7RideA).1 = true := by
  have hBA : Ride.overlaps_with c7RideB c7RideA = false := by
    rw [Bool.eq_false_iff]
    intro hov
    have h2 := ((Ride.overlaps_with_iff _ _).mp hov).2
    rw [abs_sub_le_iff] at h2
    norm_num [c7RideA, c7RideB, mkRide] at h2
  have hAB : Ride.overlaps_with c7RideA c7RideB = false := by
    rw [Ride.overlaps_with_comm]
    exact hBA
  refine ⟨by norm_num [c7RideA, c7RideB, mkRide], ?_, ?_⟩
  · rw [Park.add_ride_accept]
    intro ex hm
    have hex : ex = c7RideA := by simpa using hm
    rw [hex]
    exact hBA
  · rw [Park.add_ride_accept]
    intro ex hm
    have hex : ex = c7RideB := by simpa using hm
    rw [hex]
    exact hAB

/-- C7, amended: `add_ride` returns `False` and leaves the park unchanged
whenever the new ride's box overlaps an existing ride's box inflated by the
buffer (5); `overlaps_with` is symmetric; two rides whose centers are
closer than `(width1+width2)/2 + buffer` *horizontally* and
`(height1+height2)/2 + buffer` *vertically* are mutually rejected
regardless of insertion order; and two rides farther apart than the
buffered half-extents in some axis are both accepted with `True`.
(Euclidean center distance below `(width1+width2)/2 + buffer` alone does
not force rejection — see the counterexample.) -/
theorem claim_C7_amended :
    (∀ r1 r2 : RideS, Ride.overlaps_with r1 r2 = Ride.overlaps_with r2 r1) ∧
    (∀ (pk : ParkS) (r ex : RideS), ex ∈ pk.rides → Ride.overlaps_with r ex = true →
      Park.add_ride pk r = (false, pk)) ∧
    (∀ (pk1 pk2 : ParkS) (r1 r2 : RideS), r1 ∈ pk1.rides → r2 ∈ pk2.rides →
      |r1.x - r2.x| < (r1.width + r2.width) / 2 + 5 →
      |r1.y - r2.y| < (r1.height + r2.height) / 2 + 5 →
      Park.add_ride pk1 r2 = (false, pk1) ∧ Park.add_ride pk2 r1 = (false, pk2)) ∧
    (∀ (pk1 pk2 : ParkS) (r1 r2 : RideS), pk1.rides = [r1] → pk2.rides = [r2] →
      ((r1.width + r2.width) / 2 + 5 < |r1.x - r2.x| ∨
        (r1.height + r2.height) / 2 + 5 < |r1.y - r2.y|) →
      (Park.add_ride pk1 r2).1 = true ∧ (Park.add_ride pk2 r1).1 = true) := by
  refine ⟨Ride.overlaps_with_comm, Park.add_ride_reject, ?_, ?_⟩
  · intro pk1 pk2 r1 r2 hm1 hm2 hx hy
    have h21 : Ride.overlaps_with r2 r1 = true := by
      rw [Ride.overlaps_with_iff]
      rw [abs_sub_comm r2.x r1.x, abs_sub_comm r2.y r1.y,
        add_comm r2.width r1.width, add_comm r2.height r1.height]
      exact ⟨le_of_lt hx, le_of_lt hy⟩
    have h12 : Ride.overlaps_with r1 r2 = true := by
      rw [Ride.overlaps_with_comm]
      exact h21
    exact ⟨Park.add_ride_reject pk1 r2 r1 hm1 h21,
      Park.add_ride_reject pk2 r1 r2 hm2 h12⟩
  · intro pk1 pk2 r1 r2 hr1 hr2 hfar
    have h21 : Ride.overlaps_with r2 r1 = false := by
      rw [Bool.eq_false_iff]
      intro hov
      obtain ⟨hx, hy⟩ := (Ride.overlaps_with_iff r2 r1).mp hov
      rw [abs_sub_comm r2.x r1.x, add_comm r2.width r1.width] at hx
      rw [abs_sub_comm r2.y r1.y, add_comm r2.height r1.height] at hy
      rcases hfar with hfar | hfar
      · exact absurd hx (not_le.mpr hfar)
      · exact absurd hy (not_le.mpr hfar)
    have h12 : Ride.overlaps_with r1 r2 = false := by
      rw [Ride.overlaps_with_comm]
      exact h21
    constructor
    · rw [Park.add_ride_accept]
      intro ex hm
      rw [hr1] at hm
      have hex : ex = r1 := by simpa using hm
      rw [hex]
      exact h21
    · rw [Park.add_ride_accept]
      intro ex hm
      rw [hr2] at hm
      have hex : ex = r2 := by simpa using hm
      rw [hex]
      exact h12


/-- Witness for C7 (amended) at concrete inputs: `c7RideA`/`c7RideC` are
axis-close and mutually rejected in both orders; `c7RideA`/`c7RideB` are
vertically separate beyond the buffer and both accepted. -/
theorem claim_C7_amended_witness :
    (Ride.overlaps_with c7RideA c7RideC = Ride.overlaps_with c7RideC c7RideA) ∧
    (Park.add_ride { mkPark 280 200 with rides := [c7RideA] } c7RideC =
        (false, { mkPark 280 200 with rides := [c7RideA] }) ∧
      Park.add_ride { mkPark 280 200 with rides := [c7RideC] } c7RideA =
        (false, { mkPark 280 200 with rides := [c7RideC] })) ∧
    ((Park.add_ride { mkPark 280 200 with rides := [c7RideA] } c7RideB).1 = true ∧
      (Park.add_ride { mkPark 280 200 with rides := [c7RideB] } c7RideA).1 = true) := by
  refine ⟨claim_C7_amended.1 c7RideA c7RideC, ?_, ?_⟩
  · refine claim_C7_amended.2.2.1
      { mkPark 280 200 with rides := [c7RideA] }
      { mkPark 280 200 with rides := [c7RideC] }
      c7RideA c7RideC (by simp) (by simp) ?_ ?_
    · rw [abs_sub_lt_iff]
      norm_num [c7RideA, c7RideC, mkRide]
    · rw [abs_sub_lt_iff]
      norm_num [c7RideA, c7RideC, mkRide]
  · refine claim_C7_amended.2.2.2
      { mkPark 280 200 with rides := [c7RideA] }
      { mkPark 280 200 with rides := [c7RideB] }
      c7RideA c7RideB rfl rfl (Or.inr ?_)
    rw [show |c7RideA.y - c7RideB.y| = 16 by
      norm_num [c7RideA, c7RideB, mkRide, abs_sub_comm]]
    norm_num [c7RideA, c7RideB, mkRide]

/-- `Simulation.step` leaves `max_timesteps` unchanged. -/
theorem Simulation.step_maxTimesteps (td : TickDraws) (s : SimS) :
    (Simulation.step td s).maxTimesteps = s.maxTimesteps := by
  simp [Simulation.step]

/-- `Simulation.step` increments `current_timestep` by exactly one. -/
theorem Simulation.step_currentTimestep (td : TickDraws) (s : SimS) :
    (Simulation.step td s).currentTimestep = s.currentTimestep + 1 := by
  simp [Simulation.step]

/-- `run` drives the tick counter exactly to `max_timesteps` whenever it
starts at or below it. -/
theorem Simulation.run_counter (ocl : Nat → TickDraws) :
    ∀ (k : Nat) (s : SimS), s.maxTimesteps - s.currentTimestep = k →
      s.currentTimestep ≤ s.maxTimesteps →
      (Simulation.run ocl s).currentTimestep = s.maxTimesteps
  | 0, s, hk, hle => by
    rw [Simulation.run]
    rw [dif_neg (by omega)]
    omega
  | k + 1, s, hk, hle => by
    rw [Simulation.run]
    rw [dif_pos (by omega)]
    have hmax := Simulation.step_maxTimesteps (ocl s.currentTimestep) s
    have hcur := Simulation.step_currentTimestep (ocl s.currentTimestep) s
    rw [Simulation.run_counter ocl k (Simulation.step (ocl s.currentTimestep) s)
      (by omega) (by omega)]
    omega

/-- C4.  For every `N`, every park contents (in particular the empty park
with zero rides), every spawn rate, every time of day and every sequence of
random draws, `run` on a fresh simulation with `max_timesteps = N`
terminates (it is a total function, defined by well-founded recursion on
`max_timesteps - current_timestep`) and leaves the tick counter at exactly
`N`. -/
theorem claim_C4_run_reaches_exactly_N (ocl : Nat → TickDraws) (W H : ℚ)
    (rides : List RideS) (patrons : List Patron) (N : Nat) (rate : ℚ) (tod : TimeOfDay) :
    (Simulation.run ocl
      (mkSim { mkPark W H with rides := rides, patrons := patrons } N rate tod)).currentTimestep
      = N := by
  have h0 : (mkSim { mkPark W H with rides := rides, patrons := patrons } N rate tod).currentTimestep = 0 := rfl
  have h1 : (mkSim { mkPark W H with rides := rides, patrons := patrons } N rate tod).maxTimesteps = N := rfl
  rw [Simulation.run_counter ocl
    ((mkSim { mkPark W H with rides := rides, patrons := patrons } N rate tod).maxTimesteps -
      (mkSim { mkPark W H with rides := rides, patrons := patrons } N rate tod).currentTimestep)
    _ rfl (by rw [h0, h1]; omega), h1]

/-- C10.  Every freshly constructed patron starts with `immobile_timer` =
`DEFAULT_PATRON_IMMOBILE_TIME` = 5; and any `step_change` call made while
`immobile_timer > 0` — whatever the state — changes only `immobile_timer`
(decremented) and the time-tracking counters: position, state, targets,
visit/completion records and even the path history are untouched, the ride
list is returned unchanged, and the patron is not removed. -/
theorem claim_C10_immobility_frame :
    ((∀ (pid : Nat) (x y : ℚ) (pers : Personality) (pi : PatronInit),
        (mkPatron pid x y pers pi).immobileTimer = DEFAULT_PATRON_IMMOBILE_TIME) ∧
      DEFAULT_PATRON_IMMOBILE_TIME = 5) ∧
    (∀ (d : Draws) (pk : ParkS) (p : Patron), 0 < p.immobileTimer →
      (Patron.step_change d pk p).1.x = p.x ∧
      (Patron.step_change d pk p).1.y = p.y ∧
      (Patron.step_change d pk p).1.state = p.state ∧
      (Patron.step_change d pk p).1.currentTarget = p.currentTarget ∧
      (Patron.step_change d pk p).1.targetRide = p.targetRide ∧
      (Patron.step_change d pk p).1.visitedRides = p.visitedRides ∧
      (Patron.step_change d pk p).1.ridesCompleted = p.ridesCompleted ∧
      (Patron.step_change d pk p).1.pathHistory = p.pathHistory ∧
      (Patron.step_change d pk p).1.immobileTimer = p.immobileTimer - 1 ∧
      (Patron.step_change d pk p).1.timeInPark = p.timeInPark + 1 ∧
      (Patron.step_change d pk p).1.timeQueuing =
        p.timeQueuing + (if p.state = PatronState.queuing then 1 else 0) ∧
      (Patron.step_change d pk p).1.timeRiding =
        p.timeRiding + (if p.state = PatronState.riding then 1 else 0) ∧
      (Patron.step_change d pk p).1.timeRoaming =
        p.timeRoaming + (if p.state = PatronState.roaming then 1 else 0) ∧
      (Patron.step_change d pk p).2.1 = pk.rides ∧
      (Patron.step_change d pk p).2.2 = false) := by
  refine ⟨⟨fun pid x y pers pi => rfl, rfl⟩, ?_⟩
  intro d pk p h
  unfold Patron.step_change
  dsimp only
  split
  · dsimp only
    simp_all
  · split
    · dsimp only
      simp_all
    · split
      · dsimp only
        simp_all
      · dsimp only
        simp_all

/-- Witness for C10 at a concrete input: a just-spawned patron (immobile
timer 5 > 0) in the default empty park. -/
theorem claim_C10_immobility_frame_witness :
    ((mkPatron 3 30 40 Personality.balanced
        { desiredRides := 2, speedDelta := 0, patience := 5, adventureLevel := 0 }).immobileTimer
      = DEFAULT_PATRON_IMMOBILE_TIME) ∧
    (Patron.step_change zeroDraws (mkPark 280 200)
        (mkPatron 3 30 40 Personality.balanced
          { desiredRides := 2, speedDelta := 0, patience := 5, adventureLevel := 0 })).1.x = 30 ∧
    (Patron.step_change zeroDraws (mkPark 280 200)
        (mkPatron 3 30 40 Personality.balanced
          { desiredRides := 2, speedDelta := 0, patience := 5, adventureLevel := 0 })).1.state =
      PatronState.roaming ∧
    (Patron.step_change zeroDraws (mkPark 280 200)
        (mkPatron 3 30 40 Personality.balanced
          { desiredRides := 2, speedDelta := 0, patience := 5, adventureLevel := 0 })).1.immobileTimer
      = 4 ∧
    (Patron.step_change zeroDraws (mkPark 280 200)
        (mkPatron 3 30 40 Personality.balanced
          { desiredRides := 2, speedDelta := 0, patience := 5, adventureLevel := 0 })).2.2 = false := by
  have hfr := claim_C10_immobility_frame.2 zeroDraws (mkPark 280 200)
    (mkPatron 3 30 40 Personality.balanced
      { desiredRides := 2, speedDelta := 0, patience := 5, adventureLevel := 0 })
    (by decide)
  refine ⟨claim_C10_immobility_frame.1.1 3 30 40 Personality.balanced _, ?_, ?_, ?_,
    hfr.2.2.2.2.2.2.2.2.2.2.2.2.2.2⟩
  · rw [hfr.1]
    rfl
  · rw [hfr.2.2.1]
    rfl
  · rw [hfr.2.2.2.2.2.2.2.2.1]
    rfl

/-- One `step_change` of an Exiting patron in a park with no exits: the
position and the Exiting state are untouched, the ride list is returned
unchanged, and the patron is not removed. -/
theorem Patron.step_exiting_frame (d : Draws) (pk : ParkS) (p : Patron)
    (hex : pk.exits = []) (hst : p.state = PatronState.exiting) :
    (Patron.step_change d pk p).1.x = p.x ∧ (Patron.step_change d pk p).1.y = p.y ∧
    (Patron.step_change d pk p).1.state = PatronState.exiting ∧
    (Patron.step_change d pk p).2.1 = pk.rides ∧
    (Patron.step_change d pk p).2.2 = false := by
  unfold Patron.step_change
  dsimp only
  simp only [hst, reduceCtorEq, reduceIte]
  split
  · simp
  · unfold Patron.step_active Patron.move_to_exit
    dsimp only
    simp only [hst, reduceCtorEq, reduceIte, hex]
    unfold Patron.after_history Patron.push_history
    simp

/-- C9.  A patron in the Exiting state in a park whose exits list is empty:
every `step_change` completes totally (the embedding is a total function;
the `exits == []` branch of `move_to_exit` is an explicit no-op, not an
empty-choice reduction), never removes the patron and returns the rides
unchanged, and any number of iterated calls leaves the position and the
Exiting state exactly as they were. -/
theorem claim_C9_empty_exits_safe (pk : ParkS) (hex : pk.exits = [])
    (p : Patron) (hst : p.state = PatronState.exiting) (dr : Nat → Draws) :
    (∀ d : Draws, (Patron.step_change d pk p).2.1 = pk.rides ∧
      (Patron.step_change d pk p).2.2 = false) ∧
    (∀ n : Nat, (Patron.step_iter dr pk n p).x = p.x ∧
      (Patron.step_iter dr pk n p).y = p.y ∧
      (Patron.step_iter dr pk n p).state = PatronState.exiting) := by
  constructor
  · intro d
    have hfr := Patron.step_exiting_frame d pk p hex hst
    exact ⟨hfr.2.2.2.1, hfr.2.2.2.2⟩
  · intro n
    induction n generalizing pk p with
    | zero => exact ⟨rfl, rfl, hst⟩
    | succ m ih =>
      have hfr := Patron.step_exiting_frame (dr m) pk p hex hst
      show ((Patron.step_iter dr
          { pk with rides := (Patron.step_change (dr m) pk p).2.1 } m
          (Patron.step_change (dr m) pk p).1).x = p.x ∧ _ ∧ _)
      have ih' := ih { pk with rides := (Patron.step_change (dr m) pk p).2.1 } hex
        (Patron.step_change (dr m) pk p).1 hfr.2.2.1
      exact ⟨ih'.1.trans hfr.1, ih'.2.1.trans hfr.2.1, ih'.2.2⟩

/-- Witness for C9: a concrete exiting patron in a default park with the
exits removed, stepped three times. -/
theorem claim_C9_empty_exits_safe_witness :
    (∀ d : Draws,
      (Patron.step_change d { mkPark 280 200 with exits := [] }
        { mkPatron 8 50 60 Personality.balanced
            { desiredRides := 2, speedDelta := 0, patience := 5, adventureLevel := 0 } with
          state := PatronState.exiting }).2.1 =
        ({ mkPark 280 200 with exits := [] } : ParkS).rides ∧
      (Patron.step_change d { mkPark 280 200 with exits := [] }
        { mkPatron 8 50 60 Personality.balanced
            { desiredRides := 2, speedDelta := 0, patience := 5, adventureLevel := 0 } with
          state := PatronState.exiting }).2.2 = false) ∧
    (∀ n : Nat,
      (Patron.step_iter (fun _ => zeroDraws) { mkPark 280 200 with exits := [] } n
        { mkPatron 8 50 60 Personality.balanced
            { desiredRides := 2, speedDelta := 0, patience := 5, adventureLevel := 0 } with
          state := PatronState.exiting }).x = 50 ∧
      (Patron.step_iter (fun _ => zeroDraws) { mkPark 280 200 with exits := [] } n
        { mkPatron 8 50 60 Personality.balanced
            { desiredRides := 2, speedDelta := 0, patience := 5, adventureLevel := 0 } with
          state := PatronState.exiting }).y = 60 ∧
      (Patron.step_iter (fun _ => zeroDraws) { mkPark 280 200 with exits := [] } n
        { mkPatron 8 50 60 Personality.balanced
            { desiredRides := 2, speedDelta := 0, patience := 5, adventureLevel := 0 } with
          state := PatronState.exiting }).state = PatronState.exiting) :=
  claim_C9_empty_exits_safe { mkPark 280 200 with exits := [] } rfl
    { mkPatron 8 50 60 Personality.balanced
        { desiredRides := 2, speedDelta := 0, patience := 5, adventureLevel := 0 } with
      state := PatronState.exiting } rfl (fun _ => zeroDraws)

/-- `mark_ride_completed` keeps `visited_rides` duplicate-free and keeps
its size at most `rides_completed`. -/
theorem Patron.mark_ride_completed_inv (p : Patron) (rideId : Nat)
    (h : p.visitedRides.Nodup ∧ p.visitedRides.length ≤ p.ridesCompleted) :
    (Patron.mark_ride_completed p rideId).visitedRides.Nodup ∧
      (Patron.mark_ride_completed p rideId).visitedRides.length ≤
        (Patron.mark_ride_completed p rideId).ridesCompleted := by
  obtain ⟨hn, hl⟩ := h
  unfold Patron.mark_ride_completed
  dsimp only
  split
  · exact ⟨hn, by omega⟩
  · rename_i hmem
    constructor
    · simp [List.nodup_append, hn, hmem]
    · simp only [List.length_append, List.length_singleton]
      omega

/-- A fold of pid-guarded pointwise patron transforms preserves any
per-patron property that each transform preserves. -/
theorem fold_map_patrons_inv (P : Patron → Prop) (g : Nat → Patron → Patron)
    (hg : ∀ i p, P p → P (g i p)) :
    ∀ (l : List Nat) (ps : List Patron), (∀ p ∈ ps, P p) →
      ∀ q ∈ l.foldl (fun acc pid => acc.map fun p => if p.pid = pid then g pid p else p) ps,
        P q
  | [], _, h => h
  | i :: rest, ps, h => by
    apply fold_map_patrons_inv P g hg rest
    intro p hp
    rw [List.mem_map] at hp
    obtain ⟨p0, hp0, rfl⟩ := hp
    split
    · exact hg i p0 (h p0 hp0)
    · exact h p0 hp0

/-- The patron effects of one ride tick (`load_patrons`/`unload_patrons`)
keep every patron's visited set duplicate-free and no larger than its
completion count. -/
theorem Park.apply_ride_events_inv (r : RideS) (rt : RideTickDraws) (ev : RideEvent)
    (ps : List Patron)
    (h : ∀ p ∈ ps, p.visitedRides.Nodup ∧ p.visitedRides.length ≤ p.ridesCompleted) :
    ∀ q ∈ Park.apply_ride_events r rt ev ps,
      q.visitedRides.Nodup ∧ q.visitedRides.length ≤ q.ridesCompleted := by
  unfold Park.apply_ride_events
  dsimp only
  refine fold_map_patrons_inv
    (fun q => q.visitedRides.Nodup ∧ q.visitedRides.length ≤ q.ridesCompleted)
    (fun pid p =>
      { Patron.mark_ride_completed { p with state := PatronState.roaming } r.rid with
        immobileTimer := 2 + ((rt.unloadImmobile pid : Int)) % 4
        x := r.x + rt.scatterX pid
        y := r.y + rt.scatterY pid })
    ?_ ev.unloaded _ ?_
  · intro i p hp
    exact Patron.mark_ride_completed_inv { p with state := PatronState.roaming } r.rid hp
  · refine fold_map_patrons_inv
      (fun q => q.visitedRides.Nodup ∧ q.visitedRides.length ≤ q.ridesCompleted)
      (fun _ p => { p with state := PatronState.riding, x := r.x, y := r.y })
      ?_ ev.loaded ps h
    intro i p hp
    exact hp

/-- A `foldl` preserves any invariant each step preserves. -/
theorem foldl_preserves_inv {α β : Type} (P : α → Prop) (f : α → β → α)
    (hf : ∀ a b, P a → P (f a b)) :
    ∀ (l : List β) (a : α), P a → P (l.foldl f a)
  | [], _, h => h
  | b :: rest, a, h => foldl_preserves_inv P f hf rest (f a b) (hf a b h)

/-- The ride loop of `Simulation.step` preserves the visited/completed
relation of every patron. -/
theorem Simulation.ride_pass_inv (rd : Nat → RideTickDraws) (mult : ℚ) (pk : ParkS)
    (h : ∀ p ∈ pk.patrons, p.visitedRides.Nodup ∧ p.visitedRides.length ≤ p.ridesCompleted) :
    ∀ q ∈ (Simulation.ride_pass rd mult pk).patrons,
      q.visitedRides.Nodup ∧ q.visitedRides.length ≤ q.ridesCompleted := by
  unfold Simulation.ride_pass
  refine foldl_preserves_inv
    (fun pk' => ∀ p ∈ pk'.patrons,
      p.visitedRides.Nodup ∧ p.visitedRides.length ≤ p.ridesCompleted) _ ?_ _ pk h
  intro acc i hacc
  dsimp only
  match hi : acc.rides[i]? with
  | none => simpa [hi] using hacc
  | some r =>
    simp only [hi]
    exact Park.apply_ride_events_inv _ _ _ _ hacc

/-- Every `ParkOp` sequence preserves the visited/completed relation. -/
theorem Park.run_ops_inv (rd : Nat → RideTickDraws) :
    ∀ (ops : List ParkOp) (pk : ParkS),
      (∀ p ∈ pk.patrons, p.visitedRides.Nodup ∧ p.visitedRides.length ≤ p.ridesCompleted) →
      ∀ q ∈ (Park.run_ops rd pk ops).patrons,
        q.visitedRides.Nodup ∧ q.visitedRides.length ≤ q.ridesCompleted
  | [], _, h => h
  | op :: rest, pk, h => by
    have hstep : Park.run_ops rd pk (op :: rest) =
        Park.run_ops rd (Park.apply_op rd pk op) rest := rfl
    rw [hstep]
    apply Park.run_ops_inv rd rest
    cases op with
    | join ri pi =>
      unfold Park.apply_op
      dsimp only
      match h1 : pk.rides[ri]?, h2 : pk.patrons[pi]? with
      | none, _ => simpa [h1] using h
      | some r, none => simpa [h1, h2] using h
      | some r, some p =>
        simp only [h1, h2]
        intro q hq
        rcases List.mem_or_eq_of_mem_set hq with hq | rfl
        · exact h q hq
        · exact h p (List.getElem?_mem h2)
    | rideTick => exact Simulation.ride_pass_inv rd 1 pk h

/-- C5 counterexample: the claim `rides_completed == |visited_rides|` fails
on the code.  In `c5Park` the single patron queues on the single ride,
rides a full cycle, re-queues on the same ride and rides another cycle
(`c5Ops`): `rides_completed` ends at 2 while `visited_rides` is the set
`{0}` of size 1. -/
theorem claim_C5_counterexample :
    ((Park.run_ops (fun _ => zeroRideTickDraws) c5Park c5Ops).patrons.map fun p =>
      (p.ridesCompleted, p.visitedRides.length)) = [(2, 1)] ∧ (2 : Nat) ≠ 1 := by
  constructor
  · decide
  · decide

/-- C5, amended: after any sequence of queue joins and ride ticks
(boardings via `load_patrons`, unloadings via `unload_patrons`),
`visited_rides` stays duplicate-free and `rides_completed ≥ |visited_rides|`.
Equality can fail: `visited_rides` is a set while `rides_completed` counts
every completion, so completing the same ride twice breaks it. -/
theorem claim_C5_amended (rd : Nat → RideTickDraws) (pk : ParkS) (ops : List ParkOp)
    (h : ∀ p ∈ pk.patrons,
      p.visitedRides.Nodup ∧ p.visitedRides.length ≤ p.ridesCompleted) :
    ∀ q ∈ (Park.run_ops rd pk ops).patrons,
      q.visitedRides.Nodup ∧ q.visitedRides.length ≤ q.ridesCompleted :=
  Park.run_ops_inv rd ops pk h

/-- Witness for C5 (amended) at the concrete double-cycle input. -/
theorem claim_C5_amended_witness :
    (Park.run_ops (fun _ => zeroRideTickDraws) c5Park c5Ops).patrons.all
      (fun q => decide q.visitedRides.Nodup &&
        decide (q.visitedRides.length ≤ q.ridesCompleted)) = true := by
  rw [List.all_eq_true]
  intro q hq
  have hinv := claim_C5_amended (fun _ => zeroRideTickDraws) c5Park c5Ops (by decide) q hq
  simp [hinv.1, hinv.2]

/-- `intelligent_roam` never changes the patron id or `time_in_park`. -/
theorem Patron.intelligent_roam_frame (d : Draws) (pk : ParkS) (p : Patron) :
    (Patron.intelligent_roam d pk p).1.pid = p.pid ∧
    (Patron.intelligent_roam d pk p).1.timeInPark = p.timeInPark := by
  unfold Patron.intelligent_roam Ride.add_to_queue Ride.enqueue_pid
  dsimp only
  repeat' split
  all_goals simp

/-- `check_queue_patience` never changes the patron id or `time_in_park`. -/
theorem Patron.check_queue_patience_frame (d : Draws) (pk : ParkS) (p : Patron) :
    (Patron.check_queue_patience d pk p).1.pid = p.pid ∧
    (Patron.check_queue_patience d pk p).1.timeInPark = p.timeInPark := by
  unfold Patron.check_queue_patience
  dsimp only
  repeat' split
  all_goals simp

/-- `move_to_exit` never changes the patron id or `time_in_park`. -/
theorem Patron.move_to_exit_frame (d : Draws) (pk : ParkS) (p : Patron) :
    (Patron.move_to_exit d pk p).1.pid = p.pid ∧
    (Patron.move_to_exit d pk p).1.timeInPark = p.timeInPark := by
  unfold Patron.move_to_exit
  dsimp only
  repeat' split
  all_goals simp

/-- The state dispatch past the immobility gate never changes the patron id
or `time_in_park`. -/
theorem Patron.step_active_frame (d : Draws) (pk : ParkS) (q : Patron) :
    (Patron.step_active d pk q).1.pid = q.pid ∧
    (Patron.step_active d pk q).1.timeInPark = q.timeInPark := by
  unfold Patron.step_active Patron.after_history Patron.push_history
  dsimp only
  repeat' split
  all_goals
    simp [Patron.intelligent_roam_frame, Patron.check_queue_patience_frame,
      Patron.move_to_exit_frame]

/-- Every `step_change` call preserves the patron id and bumps
`time_in_park` by exactly one — whatever branch runs. -/
theorem Patron.step_change_pid_time (d : Draws) (pk : ParkS) (p : Patron) :
    (Patron.step_change d pk p).1.pid = p.pid ∧
    (Patron.step_change d pk p).1.timeInPark = p.timeInPark + 1 := by
  unfold Patron.step_change
  dsimp only
  repeat' split
  all_goals first
    | exact ⟨rfl, rfl⟩
    | exact ⟨(Patron.step_active_frame _ _ _).1, (Patron.step_active_frame _ _ _).2⟩

/-- While the immobile timer is positive, a `step_change` never removes the
patron from the park. -/
theorem Patron.step_change_no_removal_immobile (d : Draws) (pk : ParkS) (p : Patron)
    (h : 0 < p.immobileTimer) :
    (Patron.step_change d pk p).2.2 = false := by
  unfold Patron.step_change
  dsimp only
  repeat' split
  all_goals simp_all

/-- The patron loop advances every snapshot entry exactly once: projected to
`(pid, time_in_park)`, the surviving patrons are a sublist of the snapshot
with every counter bumped by exactly one (in particular, mid-loop removals
do not disturb the other patrons' updates). -/
theorem Simulation.patron_pass_advances (dr : Nat → Draws) (pk : ParkS) :
    ∀ (ps : List Patron) (rides : List RideS),
      List.Sublist
        ((Simulation.patron_pass dr pk ps rides).1.map fun p => (p.pid, p.timeInPark))
        (ps.map fun p => (p.pid, p.timeInPark + 1))
  | [], rides => by
    simp [Simulation.patron_pass]
  | p :: rest, rides => by
    have hunf : Simulation.patron_pass dr pk (p :: rest) rides =
        (if (Patron.step_change (dr p.pid) { pk with rides := rides } p).2.2 then
          (Simulation.patron_pass dr pk rest
            (Patron.step_change (dr p.pid) { pk with rides := rides } p).2.1).1
        else
          (Patron.step_change (dr p.pid) { pk with rides := rides } p).1 ::
            (Simulation.patron_pass dr pk rest
              (Patron.step_change (dr p.pid) { pk with rides := rides } p).2.1).1,
        (Simulation.patron_pass dr pk rest
          (Patron.step_change (dr p.pid) { pk with rides := rides } p).2.1).2) := rfl
    rw [hunf]
    have ih := Simulation.patron_pass_advances dr pk rest
      (Patron.step_change (dr p.pid) { pk with rides := rides } p).2.1
    split
    · exact ih.trans (List.sublist_cons_self _ _)
    · rw [List.map_cons, List.map_cons]
      have hfr := Patron.step_change_pid_time (dr p.pid) { pk with rides := rides } p
      rw [show ((Patron.step_change (dr p.pid) { pk with rides := rides } p).1.pid,
          (Patron.step_change (dr p.pid) { pk with rides := rides } p).1.timeInPark) =
          (p.pid, p.timeInPark + 1) by rw [hfr.1, hfr.2]]
      exact ih.cons₂ _

/-- A patron whose own `step_change` never signals removal survives the
patron loop, advanced exactly once. -/
theorem Simulation.patron_pass_keeps (dr : Nat → Draws) (pk : ParkS) :
    ∀ (ps : List Patron) (rides : List RideS) (p : Patron), p ∈ ps →
      (∀ (d : Draws) (pk' : ParkS), (Patron.step_change d pk' p).2.2 = false) →
      ∃ q ∈ (Simulation.patron_pass dr pk ps rides).1,
        q.pid = p.pid ∧ q.timeInPark = p.timeInPark + 1
  | [], _, p, hp, _ => absurd hp (List.not_mem_nil p)
  | p0 :: rest, rides, p, hp, hnr => by
    have hunf : Simulation.patron_pass dr pk (p0 :: rest) rides =
        (if (Patron.step_change (dr p0.pid) { pk with rides := rides } p0).2.2 then
          (Simulation.patron_pass dr pk rest
            (Patron.step_change (dr p0.pid) { pk with rides := rides } p0).2.1).1
        else
          (Patron.step_change (dr p0.pid) { pk with rides := rides } p0).1 ::
            (Simulation.patron_pass dr pk rest
              (Patron.step_change (dr p0.pid) { pk with rides := rides } p0).2.1).1,
        (Simulation.patron_pass dr pk rest
          (Patron.step_change (dr p0.pid) { pk with rides := rides } p0).2.1).2) := rfl
    rcases List.mem_cons.mp hp with rfl | hp'
    · rw [hunf]
      rw [if_neg (by rw [hnr (dr p.pid) { pk with rides := rides }]; exact Bool.false_ne_true)]
      have hfr := Patron.step_change_pid_time (dr p.pid) { pk with rides := rides } p
      exact ⟨(Patron.step_change (dr p.pid) { pk with rides := rides } p).1,
        List.mem_cons_self _ _, hfr.1, hfr.2⟩
    · obtain ⟨q, hq, hq1, hq2⟩ := Simulation.patron_pass_keeps dr pk rest
        (Patron.step_change (dr p0.pid) { pk with rides := rides } p0).2.1 p hp' hnr
      rw [hunf]
      split
      · exact ⟨q, hq, hq1, hq2⟩
      · exact ⟨q, List.mem_cons_of_mem _ hq, hq1, hq2⟩

/-- A fold of pid-guarded pointwise patron transforms that keep `pid` and
`time_in_park` leaves the `(pid, time_in_park)` projection of the patron
list unchanged. -/
theorem fold_map_patrons_proj (g : Nat → Patron → Patron)
    (hg : ∀ i p, (g i p).pid = p.pid ∧ (g i p).timeInPark = p.timeInPark) :
    ∀ (l : List Nat) (ps : List Patron),
      ((l.foldl (fun acc pid => acc.map fun p => if p.pid = pid then g pid p else p) ps).map
        fun p => (p.pid, p.timeInPark)) = ps.map fun p => (p.pid, p.timeInPark)
  | [], _ => rfl
  | i :: rest, ps => by
    rw [List.foldl_cons, fold_map_patrons_proj g hg rest]
    rw [List.map_map]
    apply List.map_congr_left
    intro p _
    dsimp only [Function.comp]
    split
    · rw [(hg i p).1, (hg i p).2]
    · rfl

/-- Applying one ride's load/unload events leaves every patron's
`(pid, time_in_park)` unchanged. -/
theorem Park.apply_ride_events_proj (r : RideS) (rt : RideTickDraws) (ev : RideEvent)
    (ps : List Patron) :
    ((Park.apply_ride_events r rt ev ps).map fun p => (p.pid, p.timeInPark)) =
      ps.map fun p => (p.pid, p.timeInPark) := by
  unfold Park.apply_ride_events
  dsimp only
  rw [fold_map_patrons_proj
    (fun pid p =>
      { Patron.mark_ride_completed { p with state := PatronState.roaming } r.rid with
        immobileTimer := 2 + ((rt.unloadImmobile pid : Int)) % 4
        x := r.x + rt.scatterX pid
        y := r.y + rt.scatterY pid })
    (fun i p => ⟨rfl, rfl⟩) ev.unloaded]
  exact fold_map_patrons_proj
    (fun _ p => { p with state := PatronState.riding, x := r.x, y := r.y })
    (fun i p => ⟨rfl, rfl⟩) ev.loaded ps

/-- The ride loop of `Simulation.step` leaves every patron's
`(pid, time_in_park)` unchanged. -/
theorem Simulation.ride_pass_proj (rd : Nat → RideTickDraws) (mult : ℚ) (pk : ParkS) :
    ((Simulation.ride_pass rd mult pk).patrons.map fun p => (p.pid, p.timeInPark)) =
      pk.patrons.map fun p => (p.pid, p.timeInPark) := by
  unfold Simulation.ride_pass
  refine foldl_preserves_inv
    (fun (a : ParkS) => (a.patrons.map fun p => (p.pid, p.timeInPark)) =
      pk.patrons.map fun p => (p.pid, p.timeInPark)) _ ?_ _ _ rfl
  intro acc i hacc
  dsimp only
  match hi : acc.rides[i]? with
  | none => simpa [hi] using hacc
  | some r =>
    simp only [hi]
    rw [Park.apply_ride_events_proj]
    exact hacc

/-- C3 counterexample: the claim says a patron spawned during a tick is not
advanced (`step_change` not called on it) until the next tick; but
`Simulation.step` spawns *before* taking the patron snapshot, so the
spawned patron is advanced in its spawn tick.  From the empty `c3Sim` park
with a certain spawn roll, the tick ends with the new patron's
`time_in_park` already at 1 (the claim requires it to still be 0). -/
theorem claim_C3_counterexample :
    c3Sim.park.patrons = [] ∧ zeroTickDraws.spawnDraw < c3Sim.spawnRate ∧
    ((Simulation.step zeroTickDraws c3Sim).park.patrons.map fun p =>
      (p.pid, p.timeInPark)) = [(1, 1)] ∧ (1 : Nat) ≠ 0 := by
  refine ⟨rfl, by decide, ?_, by decide⟩
  decide

/-- C3, amended: in every `Simulation.step`, (i) every patron in the
snapshot taken after the spawn phase — which is every patron active at the
start of the tick, plus the patron spawned this tick if any — is advanced
(`step_change` called, `time_in_park` bumped) exactly once, and patrons
removed mid-tick do not perturb the updates of the others: projected to
`(pid, time_in_park)`, the post-tick patron list is a sublist of the
snapshot with every counter bumped by exactly one; and (ii) a patron
spawned during the tick IS advanced in that same tick (the spawn happens
before the snapshot): it survives the tick with `time_in_park` = 1. -/
theorem claim_C3_amended (td : TickDraws) (s : SimS) :
    List.Sublist
      ((Simulation.step td s).park.patrons.map fun p => (p.pid, p.timeInPark))
      ((Simulation.spawned_patrons td s).map fun p => (p.pid, p.timeInPark + 1)) ∧
    (td.spawnDraw < s.spawnRate →
      ∃ q ∈ (Simulation.step td s).park.patrons,
        q.pid = s.nextPatronId ∧ q.timeInPark = 1) := by
  have hpark : (Simulation.step td s).park =
      Simulation.ride_pass td.rideDraws s.rideSpeedMultiplier
        { s.park with
          patrons := (Simulation.patron_pass td.patronDraws
            { s.park with patrons := Simulation.spawned_patrons td s }
            (Simulation.spawned_patrons td s) s.park.rides).1
          rides := (Simulation.patron_pass td.patronDraws
            { s.park with patrons := Simulation.spawned_patrons td s }
            (Simulation.spawned_patrons td s) s.park.rides).2 } := rfl
  constructor
  · rw [hpark, Simulation.ride_pass_proj]
    exact Simulation.patron_pass_advances td.patronDraws
      { s.park with patrons := Simulation.spawned_patrons td s }
      (Simulation.spawned_patrons td s) s.park.rides
  · intro hsp
    have hmem : Park.spawn_patron s.park td.spawn s.nextPatronId ∈
        Simulation.spawned_patrons td s := by
      unfold Simulation.spawned_patrons
      rw [if_pos hsp]
      exact List.mem_append_right _ (List.mem_singleton_self _)
    have hnr : ∀ (d : Draws) (pk' : ParkS),
        (Patron.step_change d pk' (Park.spawn_patron s.park td.spawn s.nextPatronId)).2.2 =
          false := by
      intro d pk'
      exact Patron.step_change_no_removal_immobile d pk' _ (show (0 : Int) < 5 by decide)
    obtain ⟨q, hq, hq1, hq2⟩ := Simulation.patron_pass_keeps td.patronDraws
      { s.park with patrons := Simulation.spawned_patrons td s }
      (Simulation.spawned_patrons td s) s.park.rides
      (Park.spawn_patron s.park td.spawn s.nextPatronId) hmem hnr
    have hq1' : q.pid = s.nextPatronId := hq1
    have hq2' : q.timeInPark = 1 := hq2
    have hmm : (q.pid, q.timeInPark) ∈
        ((Simulation.step td s).park.patrons.map fun p => (p.pid, p.timeInPark)) := by
      rw [hpark, Simulation.ride_pass_proj]
      exact List.mem_map_of_mem _ hq
    rw [List.mem_map] at hmm
    obtain ⟨q', hq'mem, hq'eq⟩ := hmm
    refine ⟨q', hq'mem, ?_, ?_⟩
    · have := congrArg Prod.fst hq'eq
      simp only at this
      rw [this, hq1']
    · have := congrArg Prod.snd hq'eq
      simp only at this
      rw [this, hq2']

/-- Witness for C3 (amended) at the concrete input: stepping `c3Sim` with a
spawning roll, the projected patron list is a sublist of the advanced
snapshot, and the spawned patron survives the tick already advanced once. -/
theorem claim_C3_amended_witness :
    List.Sublist
      ((Simulation.step zeroTickDraws c3Sim).park.patrons.map fun p =>
        (p.pid, p.timeInPark))
      ((Simulation.spawned_patrons zeroTickDraws c3Sim).map fun p =>
        (p.pid, p.timeInPark + 1)) ∧
    ∃ q ∈ (Simulation.step zeroTickDraws c3Sim).park.patrons,
      q.pid = c3Sim.nextPatronId ∧ q.timeInPark = 1 :=
  ⟨(claim_C3_amended zeroTickDraws c3Sim).1,
    (claim_C3_amended zeroTickDraws c3Sim).2 (by decide)⟩
